import Mathlib

/-!
# incflo: time-step controller and steady-state monitor

A shallow embedding of `src/advance.cpp` and of the parameter checks of
`src/setup/init.cpp` (with the member defaults of `src/incflo.H`), and the
properties of the time-step controller `ComputeDt`, the predictor-corrector
step `Advance` and the steady-state monitor `SteadyStateReached`.

Modelling conventions

* `amrex::Real` is modelled by `ℚ` with exact arithmetic: rounding, overflow
  and the non-finite values of IEEE arithmetic are outside the model.  A
  quotient whose divisor is zero has the value Lean gives it (`x / 0 = 0`);
  `ComputeDt_checked` is the variant that reports the zero divisor instead.
* `sqrt` of the C library is a parameter `sqrt : ℚ → ℚ` of the definitions
  that call it; `sqrtQ` is an executable instance, exact on squares of
  rationals, used at concrete inputs.  The expressions of lines 127 and 130
  are written once, over any field (`comb_cfl_at`, `dt_new_at`): `ComputeDt`
  uses them over `ℚ`, and the algebra of the combined bound is proved over
  `ℝ` with the real square root.
* A `MultiFab` is the list of its valid cells; each cell carries the
  embedded-boundary `covered` flag and its component values.  The per-level
  arrays (`Vector<std::unique_ptr<MultiFab>>`) are lists indexed by level.
* `int` is `ℤ`; the level count `finest_level` is a `ℕ`.
* The member functions that are declared in incflo.H and defined elsewhere
  (`ComputeUGradU`, `UpdateDerivedQuantities`, `ApplyProjection`, the diffusion
  solve) are parameters, collected in `Collaborators`; they return the fields
  they write.  `FillScalarBC` and `FillVelocityBC` write ghost cells and
  boundary values only and leave the valid cells as they are.  Every call is
  recorded, in order, in the `calls` of a `Run`; `Step.effect` gives the
  effect of a recorded call on the members, against which the members that a
  stage returns are compared.
-/

namespace Incflo

/-! ## Data model -/

/-- One valid cell of a `MultiFab`: the embedded-boundary covered flag and the
values of the components stored in the cell. -/
structure Cell where
  covered : Bool := false
  data : List ℚ
deriving DecidableEq, Repr

/-- The valid cells of one level of a field. -/
abbrev MultiFab := List Cell

/-- The part of `amrex::Geometry` that is read: `CellSize()`, the grid spacing
in the three directions. -/
structure Geometry where
  CellSize : List ℚ
deriving DecidableEq, Repr

/-- The members of `class incflo` (incflo.H) read or written by `Advance`,
`ComputeDt`, `SteadyStateReached` and the checks of `ReadParameters`, with the
defaults of incflo.H. -/
structure incflo where
  finest_level : ℕ := 0
  geom : List Geometry := []
  cur_time : ℚ := 0
  dt : ℚ := -1
  nstep : ℤ := -1
  stop_time : ℚ := -1
  max_step : ℤ := -1
  steady_state : Bool := false
  steady_state_tol : ℚ := 1 / 100000
  cfl : ℚ := 1 / 2
  fixed_dt : ℚ := -1
  gp0 : List ℚ := [0, 0, 0]
  gravity : List ℚ := [0, 0, 0]
  plot_per : ℚ := -1
  last_plt : ℤ := -1
  ro : List MultiFab := []
  vel : List MultiFab := []
  vel_old : List MultiFab := []
  eta : List MultiFab := []
  t_old : List ℚ := []
  t_new : List ℚ := []
  gp : List MultiFab := []
  conv : List MultiFab := []
  conv_old : List MultiFab := []
  incflo_verbose : ℤ := 0
  ro_0 : ℚ := 1
  fluid_model : String := ""
  mu : ℚ := 1
  n : ℚ := 0
  tau_0 : ℚ := 0
  papa_reg : ℚ := 0
  eta_0 : ℚ := 0

/-! ## Library functions -/

/-- The value of `std::numeric_limits<Real>::epsilon()` for `double`: 2^-52. -/
def eps : ℚ := 1 / 2 ^ 52

/-- The C library `trunc`: rounding toward zero. -/
def trunc (x : ℚ) : ℚ := if 0 ≤ x then (⌊x⌋ : ℤ) else (⌈x⌉ : ℤ)

/-- The integer square root by halving: the root of `n` is twice the root of
`n / 4`, or one more.  The first argument bounds the depth of the recursion. -/
def isqrt_aux : ℕ → ℕ → ℕ
  | 0, _ => 0
  | fuel + 1, n =>
    if n = 0 then 0
    else
      let r := 2 * isqrt_aux fuel (n / 4)
      if (r + 1) * (r + 1) ≤ n then r + 1 else r

/-- The integer square root of `n`: the largest `r` with `r * r ≤ n`. -/
def isqrt (n : ℕ) : ℕ := isqrt_aux n n

/-- An executable square root on `ℚ`: the integer square root of
`num * den` over `den`.  It is exact on squares of rationals and rounds the
real square root down otherwise. -/
def sqrtQ (x : ℚ) : ℚ := (isqrt (x.num.toNat * x.den) : ℚ) / (x.den : ℚ)

/-- Modelled from the spec: `incflo::Norm(mf, lev, comp, norm_type)` is declared
in incflo.H and its body is not among the sources.  Following sections 4.1 and
4.3 of the spec and the comments at its call sites in advance.cpp, it reduces
component `comp` of level `lev` over the uncovered cells: the largest absolute
value for `norm_type = 0` and the sum of the absolute values otherwise. -/
def Norm (mf : List MultiFab) (lev comp : ℕ) (norm_type : ℤ) : ℚ :=
  let vals := ((mf.getD lev []).filter (fun c => !c.covered)).map
    (fun c => |c.data.getD comp 0|)
  if norm_type = 0 then vals.foldl max 0 else vals.foldl (fun a b => a + b) 0

/-- The cell-wise `MultiFab::LinComb(dst, a, x, 0, b, y, 0, 0, 3, 0)`:
`dst = a * x + b * y` on the three components of every valid cell. -/
def LinComb (a : ℚ) (x : MultiFab) (b : ℚ) (y : MultiFab) : MultiFab :=
  List.zipWith (fun cx cy =>
    { covered := cx.covered,
      data := (List.range 3).map (fun i => a * cx.data.getD i 0 + b * cy.data.getD i 0) })
    x y

/-! ## ComputeDt (advance.cpp, lines 90-181) -/

/-- Lines 95, 103: the largest `Norm(vel, lev, 0, 0)` over the levels, from 0. -/
def umax (s : incflo) : ℚ :=
  (List.range (s.finest_level + 1)).foldl (fun m lev => max m (Norm s.vel lev 0 0)) 0

/-- Lines 96, 104: the largest `Norm(vel, lev, 1, 0)` over the levels, from 0. -/
def vmax (s : incflo) : ℚ :=
  (List.range (s.finest_level + 1)).foldl (fun m lev => max m (Norm s.vel lev 1 0)) 0

/-- Lines 97, 105: the largest `Norm(vel, lev, 2, 0)` over the levels, from 0. -/
def wmax (s : incflo) : ℚ :=
  (List.range (s.finest_level + 1)).foldl (fun m lev => max m (Norm s.vel lev 2 0)) 0

/-- Lines 98, 106: the smallest `Norm(ro, lev, 0, 0)` over the levels, from 1e20. -/
def romin (s : incflo) : ℚ :=
  (List.range (s.finest_level + 1)).foldl (fun m lev => min m (Norm s.ro lev 0 0)) (10 ^ 20)

/-- Lines 99, 107: the largest `Norm(eta, lev, 0, 0)` over the levels, from 0. -/
def etamax (s : incflo) : ℚ :=
  (List.range (s.finest_level + 1)).foldl (fun m lev => max m (Norm s.eta lev 0 0)) 0

/-- Line 110: `geom[finest_level].CellSize()`. -/
def dx (s : incflo) : List ℚ := (s.geom.getD s.finest_level ⟨[]⟩).CellSize

/-- Line 111. -/
def idx (s : incflo) : ℚ := 1 / (dx s).getD 0 0

/-- Line 112. -/
def idy (s : incflo) : ℚ := 1 / (dx s).getD 1 0

/-- Line 113. -/
def idz (s : incflo) : ℚ := 1 / (dx s).getD 2 0

/-- Line 116: the convective term. -/
def conv_cfl (s : incflo) : ℚ := max (max (umax s * idx s) (vmax s * idy s)) (wmax s * idz s)

/-- Line 119: the viscous term. -/
def diff_cfl (s : incflo) : ℚ :=
  2 * etamax s / romin s * (idx s * idx s + idy s * idy s + idz s * idz s)

/-- Lines 122-124: the forcing term. -/
def forc_cfl (s : incflo) : ℚ :=
  abs (s.gravity.getD 0 0 - abs (s.gp0.getD 0 0)) * idx s
    + abs (s.gravity.getD 1 0 - abs (s.gp0.getD 1 0)) * idy s
    + abs (s.gravity.getD 2 0 - abs (s.gp0.getD 2 0)) * idz s

/-- Line 127: the expression
`conv_cfl + diff_cfl + sqrt(pow(conv_cfl + diff_cfl, 2) + 4.0 * forc_cfl)` as a
function of `S = conv_cfl + diff_cfl` and `F = forc_cfl`, over any field `K` of
numbers with its square root: the rationals with `sqrtQ` when it is evaluated,
the reals with `Real.sqrt` when it is reasoned about. -/
def comb_cfl_at {K : Type} [Field K] (sqrt : K → K) (S F : K) : K :=
  S + sqrt (S ^ 2 + 4 * F)

/-- Line 130: the expression `2.0 * cfl / comb_cfl` over any field `K`. -/
def dt_new_at {K : Type} [Field K] (cfl comb : K) : K := 2 * cfl / comb

/-- Line 127: the combined CFL conditioner. -/
def comb_cfl (sqrt : ℚ → ℚ) (s : incflo) : ℚ :=
  comb_cfl_at sqrt (conv_cfl s + diff_cfl s) (forc_cfl s)

/-- Lines 133-135: the reduction of the candidate on the initial call. -/
def initial_scale (initialisation : ℤ) (dt_new : ℚ) : ℚ :=
  if initialisation ≠ 0 then dt_new * (1 / 10) else dt_new

/-- Lines 140-143: the protection against a very small `comb_cfl`. -/
def comb_cfl_guard (s : incflo) (comb : ℚ) (dt_new : ℚ) : ℚ :=
  if comb ≤ eps then 1 / 2 * s.dt else dt_new

/-- Lines 146-148: the time step grows by at most 10% per step. -/
def growth_limit (s : incflo) (dt_new : ℚ) : ℚ :=
  if s.dt > 0 ∧ s.last_plt ≠ s.nstep then min dt_new (11 / 10 * s.dt) else dt_new

/-- Lines 151-155: the alignment with the plot times, in exact arithmetic (the
rounding of `cur_time + eps` and of the quotients in doubles is not modelled). -/
def plot_align (s : incflo) (dt_new : ℚ) : ℚ :=
  if s.plot_per > 0 ∧
      trunc ((s.cur_time + dt_new + eps) / s.plot_per) > trunc ((s.cur_time + eps) / s.plot_per)
  then trunc ((s.cur_time + dt_new) / s.plot_per) * s.plot_per - s.cur_time
  else dt_new

/-- Lines 158-162: the clip at the final time. -/
def stop_clip (s : incflo) (dt_new : ℚ) : ℚ :=
  if ¬ s.steady_state = true ∧ s.stop_time > 0 then
    if s.cur_time + dt_new > s.stop_time then s.stop_time - s.cur_time else dt_new
  else dt_new

/-- Lines 165-167: the time step is not set to zero after a plot stop. -/
def degenerate_guard (s : incflo) (dt_new : ℚ) : ℚ :=
  if dt_new < eps then 1 / 2 * s.dt else dt_new

/-- Line 130: the quotient `2.0 * cfl / comb_cfl`, computed before the guard of
line 141. -/
def dt_new (sqrt : ℚ → ℚ) (s : incflo) : ℚ := dt_new_at s.cfl (comb_cfl sqrt s)

/-- Lines 133-148: the value of the local `dt_new` after the growth limiter, as
a function of `comb_cfl` and of the quotient computed at line 130. -/
def dt_limited (s : incflo) (initialisation : ℤ) (comb : ℚ) (quotient : ℚ) : ℚ :=
  growth_limit s (comb_cfl_guard s comb (initial_scale initialisation quotient))

/-- Lines 133-162: the value of the local `dt_new` after the plot-time
alignment and the stop-time clip. -/
def dt_clipped (s : incflo) (initialisation : ℤ) (comb : ℚ) (quotient : ℚ) : ℚ :=
  stop_clip s (plot_align s (dt_limited s initialisation comb quotient))

/-- Lines 133-167: the value of the local `dt_new` when line 169 is reached. -/
def dt_candidate (s : incflo) (initialisation : ℤ) (comb : ℚ) (quotient : ℚ) : ℚ :=
  degenerate_guard s (dt_clipped s initialisation comb quotient)

/-- Lines 170-180: the fixed time step overrides the candidate. -/
def store_dt (s : incflo) (dt_new : ℚ) : incflo :=
  if s.fixed_dt > 0 then { s with dt := s.fixed_dt } else { s with dt := dt_new }

/-- The function `incflo::ComputeDt(int initialisation)`: the state after the call. -/
def ComputeDt (sqrt : ℚ → ℚ) (s : incflo) (initialisation : ℤ) : incflo :=
  store_dt s (dt_candidate s initialisation (comb_cfl sqrt s) (dt_new sqrt s))

/-- The function `ComputeDt` with the division of line 130 checked: the
quotient `2.0 * cfl / comb_cfl` is computed before the guard of line 141, and a
zero divisor is reported instead of given a value. -/
def ComputeDt_checked (sqrt : ℚ → ℚ) (s : incflo) (initialisation : ℤ) : Except String incflo :=
  if comb_cfl sqrt s = 0 then Except.error "division by zero: 2.0 * cfl / comb_cfl"
  else Except.ok (store_dt s
    (dt_candidate s initialisation (comb_cfl sqrt s) (dt_new sqrt s)))

/-- Lines 170-175: with a fixed time step, the warning "fixed_dt does not satisfy
CFL condition" is printed when the local `dt_new` is below `fixed_dt`. -/
def warns (s : incflo) (dt_new : ℚ) : Bool :=
  decide (s.fixed_dt > 0 ∧ dt_new < s.fixed_dt)

/-- The output of `ComputeDt`: whether the warning of lines 172-174 is printed. -/
def ComputeDt_warning (sqrt : ℚ → ℚ) (s : incflo) (initialisation : ℤ) : Bool :=
  warns s (dt_candidate s initialisation (comb_cfl sqrt s) (dt_new sqrt s))

/-! ## SteadyStateReached (advance.cpp, lines 405-463) -/

/-- Lines 416-420: `diff_vel[lev] = vel[lev] - vel_old[lev]` on every level. -/
def diff_vel (s : incflo) : List MultiFab :=
  (List.range (s.finest_level + 1)).map
    (fun lev => LinComb 1 (s.vel.getD lev []) (-1) (s.vel_old.getD lev []))

/-- Lines 433-435: the relative change of component `i` on level `lev`. -/
def relchange (s : incflo) (lev i : ℕ) : ℚ :=
  let norm1_diff := Norm (diff_vel s) lev i 1
  let norm1_old := Norm s.vel_old lev i 1
  if norm1_old > 1 / 10 ^ 15 then norm1_diff / norm1_old else 0

/-- A division that reports a zero divisor instead of giving it a value. -/
def checked_div (a b : ℚ) : Except String ℚ :=
  if b = 0 then Except.error "division by zero" else Except.ok (a / b)

/-- Lines 433-435 with the division checked: the quotient is in the first branch
of the conditional expression and is computed only when `norm1_old > 1e-15`. -/
def relchange_checked (s : incflo) (lev i : ℕ) : Except String ℚ :=
  let norm1_diff := Norm (diff_vel s) lev i 1
  let norm1_old := Norm s.vel_old lev i 1
  if norm1_old > 1 / 10 ^ 15 then checked_div norm1_diff norm1_old else Except.ok 0

/-- Lines 422, 426-429: the largest change over the three components. -/
def max_change (s : incflo) (lev : ℕ) : ℚ :=
  (List.range 3).foldl (fun m i => max m (Norm (diff_vel s) lev i 0)) 0

/-- Lines 423, 426, 436: the largest relative change over the three components. -/
def max_relchange (s : incflo) (lev : ℕ) : ℚ :=
  (List.range 3).foldl (fun m i => max m (relchange s lev i)) 0

/-- Line 439. -/
def condition1 (s : incflo) (lev : ℕ) : Bool :=
  decide (max_change s lev < s.steady_state_tol * s.dt)

/-- Line 440. -/
def condition2 (s : incflo) (lev : ℕ) : Bool :=
  decide (max_relchange s lev < s.steady_state_tol)

/-- Lines 450-453: every level satisfies one of the two conditions. -/
def reached (s : incflo) : Bool :=
  (List.range (s.finest_level + 1)).foldl
    (fun r lev => r && (condition1 s lev || condition2 s lev)) true

/-- The function `incflo::SteadyStateReached()`: the value returned. -/
def SteadyStateReached (s : incflo) : Bool :=
  if s.nstep < 2 then false else reached s

/-! ## MultiFab operations used by the predictor and the corrector -/

/-- The call `MultiFab::Saxpy(dst, a, src, 0, 0, 3, ng)`: `dst += a * src` on the
three components of every cell. -/
def Saxpy (dst : MultiFab) (a : ℚ) (src : MultiFab) : MultiFab :=
  List.zipWith (fun d x =>
    { d with data := (List.range 3).map (fun i => d.data.getD i 0 + a * x.data.getD i 0) })
    dst src

/-- The call `dst.plus(val, comp, 1, 0)`: `val` is added to component `comp` of
every cell. -/
def plus (dst : MultiFab) (val : ℚ) (comp : ℕ) : MultiFab :=
  dst.map (fun d => { d with data := d.data.set comp (d.data.getD comp 0 + val) })

/-- The call `MultiFab::Multiply(dst, src, srccomp, dstcomp, 1, ng)`: component
`dstcomp` of `dst` is multiplied by component `srccomp` of `src`, cell by cell. -/
def Multiply (dst src : MultiFab) (srccomp dstcomp : ℕ) : MultiFab :=
  List.zipWith (fun d x =>
    { d with data := d.data.set dstcomp (d.data.getD dstcomp 0 * x.data.getD srccomp 0) })
    dst src

/-- The call `MultiFab::Divide(dst, src, srccomp, dstcomp, 1, ng)`: component
`dstcomp` of `dst` is divided by component `srccomp` of `src`, cell by cell. -/
def Divide (dst src : MultiFab) (srccomp dstcomp : ℕ) : MultiFab :=
  List.zipWith (fun d x =>
    { d with data := d.data.set dstcomp (d.data.getD dstcomp 0 / x.data.getD srccomp 0) })
    dst src

/-- The call `MultiFab::Copy(dst, src, 0, 0, src.nComp(), ng)`: every cell of
`dst` receives the component values of the same cell of `src`. -/
def Copy (dst src : MultiFab) : MultiFab :=
  List.zipWith (fun d x => { d with data := x.data }) dst src

/-- The loop `for(int lev = 0; lev <= finest_level; lev++)` whose body writes
entry `lev` of a per-level array. -/
def for_levels {α : Type} [Inhabited α] (finest_level : ℕ) (body : ℕ → α → α)
    (a : List α) : List α :=
  (List.range (finest_level + 1)).foldl (fun a lev => a.set lev (body lev (a.getD lev default))) a

/-! ## ApplyPredictor, ApplyCorrector and Advance (advance.cpp, lines 17-71 and 225-390) -/

/-- The arrays that are handed to `ComputeUGradU`. -/
inductive FieldId where
  | conv
  | conv_old
  | vel
  | vel_old
deriving DecidableEq, Repr

/-- The calls and the blocks of a time step, with their arguments. -/
inductive Step where
  | FillScalarBC
  | FillVelocityBC (time : ℚ) (extrap_dir_bcs : ℤ)
  | ComputeDt (initialisation : ℤ)
  | ComputeUGradU (dst : FieldId) (src : FieldId) (time : ℚ)
  | UpdateDerivedQuantities
  | explicit_update
  | solve (dt : ℚ)
  | ApplyProjection (time : ℚ) (scaling_factor : ℚ)
  | PrintMaxValues (time : ℚ)
deriving DecidableEq, Repr

/-- The diagnostic output, as opposed to the collaborators of the algorithm. -/
def Step.diagnostic : Step → Bool
  | Step.PrintMaxValues _ => true
  | _ => false

/-- The functions that a stage calls and that are defined outside the sources:
`ComputeUGradU(conv, vel, time)` returns the convective term of the given
velocity, `UpdateDerivedQuantities()` the new viscosity, the diffusion solve
`solve(vel, ro, eta, dt)` the new velocity and `ApplyProjection(time, scale)`
the new velocity and pressure gradient. -/
structure Collaborators where
  ComputeUGradU : incflo → List MultiFab → ℚ → List MultiFab
  UpdateDerivedQuantities : incflo → List MultiFab
  solve : List MultiFab → List MultiFab → List MultiFab → ℚ → List MultiFab
  ApplyProjection : incflo → ℚ → ℚ → List MultiFab × List MultiFab

/-- The members of the object together with the record of the calls made. -/
structure Run where
  state : incflo
  calls : List Step := []

/-- Lines 250-276: the body of the level loop of `ApplyPredictor` on the
velocity of level `lev`. -/
def predictor_level (s : incflo) (lev : ℕ) (vel_lev : MultiFab) : MultiFab :=
  let v := Saxpy vel_lev s.dt (s.conv_old.getD lev [])
  let v := (List.range 3).foldl (fun v dir => plus v (s.dt * s.gravity.getD dir 0) dir) v
  let v := (List.range 3).foldl (fun v dir => Multiply v (s.ro.getD lev []) 0 dir) v
  let v := Saxpy v (-s.dt) (s.gp.getD lev [])
  let v := (List.range 3).foldl (fun v dir => plus v (-s.dt * s.gp0.getD dir 0) dir) v
  (List.range 3).foldl (fun v dir => Divide v (s.ro.getD lev []) 0 dir) v

/-- Lines 232-277: `ApplyPredictor` up to the end of the level loop. -/
def predictor_explicit (c : Collaborators) (new_time : ℚ) (r : Run) : Run :=
  let s := r.state
  let calls :=
    if s.incflo_verbose > 2 then r.calls ++ [Step.PrintMaxValues new_time] else r.calls
  let s := { s with conv_old := c.ComputeUGradU s s.vel_old s.cur_time }
  let calls := calls ++ [Step.ComputeUGradU FieldId.conv_old FieldId.vel_old s.cur_time]
  let s := { s with eta := c.UpdateDerivedQuantities s }
  let calls := calls ++ [Step.UpdateDerivedQuantities]
  let s := { s with vel := for_levels s.finest_level (predictor_level s) s.vel }
  let calls := calls ++ [Step.explicit_update]
  { state := s, calls := calls }

/-- Lines 278-287: the boundary fill, the diffusion solve and the projection
that end `ApplyPredictor` and `ApplyCorrector` alike (lines 380-389). -/
def stage_implicit (c : Collaborators) (new_time : ℚ) (r : Run) : Run :=
  let s := r.state
  let calls := r.calls ++ [Step.FillVelocityBC new_time 0]
  let s := { s with vel := c.solve s.vel s.ro s.eta s.dt }
  let calls := calls ++ [Step.solve s.dt]
  let projected := c.ApplyProjection s new_time s.dt
  let calls := calls ++ [Step.ApplyProjection new_time s.dt]
  let s := { s with vel := projected.1, gp := projected.2 }
  let calls := calls ++ [Step.FillVelocityBC new_time 0]
  { state := s, calls := calls }

/-- The function `incflo::ApplyPredictor()`. -/
def ApplyPredictor (c : Collaborators) (r : Run) : Run :=
  let new_time := r.state.cur_time + r.state.dt
  stage_implicit c new_time (predictor_explicit c new_time r)

/-- Lines 352-378: the body of the level loop of `ApplyCorrector`; the `LinComb`
of line 352 overwrites the velocity of the level. -/
def corrector_level (s : incflo) (lev : ℕ) (_vel_lev : MultiFab) : MultiFab :=
  let v := LinComb 1 (s.vel_old.getD lev []) (s.dt / 2) (s.conv.getD lev [])
  let v := Saxpy v (s.dt / 2) (s.conv_old.getD lev [])
  let v := (List.range 3).foldl (fun v dir => plus v (s.dt * s.gravity.getD dir 0) dir) v
  let v := (List.range 3).foldl (fun v dir => Multiply v (s.ro.getD lev []) 0 dir) v
  let v := Saxpy v (-s.dt) (s.gp.getD lev [])
  let v := (List.range 3).foldl (fun v dir => plus v (-s.dt * s.gp0.getD dir 0) dir) v
  (List.range 3).foldl (fun v dir => Divide v (s.ro.getD lev []) 0 dir) v

/-- Lines 338-379: `ApplyCorrector` up to the end of the level loop. -/
def corrector_explicit (c : Collaborators) (new_time : ℚ) (r : Run) : Run :=
  let s := r.state
  let calls :=
    if s.incflo_verbose > 2 then r.calls ++ [Step.PrintMaxValues new_time] else r.calls
  let s := { s with conv := c.ComputeUGradU s s.vel new_time }
  let calls := calls ++ [Step.ComputeUGradU FieldId.conv FieldId.vel new_time]
  let s := { s with eta := c.UpdateDerivedQuantities s }
  let calls := calls ++ [Step.UpdateDerivedQuantities]
  let s := { s with vel := for_levels s.finest_level (corrector_level s) s.vel }
  let calls := calls ++ [Step.explicit_update]
  { state := s, calls := calls }

/-- The function `incflo::ApplyCorrector()`. -/
def ApplyCorrector (c : Collaborators) (r : Run) : Run :=
  let new_time := r.state.cur_time + r.state.dt
  stage_implicit c new_time (corrector_explicit c new_time r)

/-- Lines 28-52: `Advance` up to the call of `ApplyPredictor`: the boundary
fills, `ComputeDt(0)`, the old and new time of every level and the backup of
the velocity. -/
def Advance_begin (sqrt : ℚ → ℚ) (r : Run) : Run :=
  let s := r.state
  let calls := r.calls ++ [Step.FillScalarBC, Step.FillVelocityBC s.cur_time 0]
  let initialisation : ℤ := 0
  let s := ComputeDt sqrt s initialisation
  let calls := calls ++ [Step.ComputeDt initialisation]
  let s := { s with
    t_old := for_levels s.finest_level (fun _ _ => s.cur_time) s.t_old,
    t_new := for_levels s.finest_level (fun _ _ => s.cur_time + s.dt) s.t_new }
  let s := { s with
    vel_old := for_levels s.finest_level (fun lev dst => Copy dst (s.vel.getD lev [])) s.vel_old }
  { state := s, calls := calls }

/-- The function `incflo::Advance()`. -/
def Advance (c : Collaborators) (sqrt : ℚ → ℚ) (r : Run) : Run :=
  let r := ApplyCorrector c (ApplyPredictor c (Advance_begin sqrt r))
  if r.state.incflo_verbose > 1 then
    { r with calls := r.calls ++ [Step.PrintMaxValues (r.state.cur_time + r.state.dt)] }
  else r

/-! ## ReadParameters (setup/init.cpp, lines 10-206) -/

/-- The entries of the inputs file that `ReadParameters` stores in the members
modelled here, by their ParmParse name; an entry that is not given is `none`.
The entries that concern output, regridding, the initial condition and the
initial iterations (`amr.*` apart from `plot_per`, `plt_*`, `probtype`, `ic_*`,
`delp`, `initial_iterations`, `do_initial_proj`, `cylinder.speed`) are stored
without a check and are left out. -/
structure Inputs where
  stop_time : Option ℚ := none
  max_step : Option ℤ := none
  steady_state : Option Bool := none
  plot_per : Option ℚ := none
  verbose : Option ℤ := none
  cfl : Option ℚ := none
  fixed_dt : Option ℚ := none
  steady_state_tol : Option ℚ := none
  gravity : Option (List ℚ) := none
  ro_0 : Option ℚ := none
  mu : Option ℚ := none
  fluid_model : Option String := none
  n : Option ℚ := none
  tau_0 : Option ℚ := none
  papa_reg : Option ℚ := none
  eta_0 : Option ℚ := none

/-- The call `pp.query(name, ref)`: `ref` receives the entry when it is given
and keeps its value otherwise. -/
def query {α : Type} (entry : Option α) (ref : α) : α := entry.getD ref

/-- The macro `AMREX_ALWAYS_ASSERT(cond)` followed by the rest of the function:
the run aborts with the message when the condition fails. -/
def AMREX_ALWAYS_ASSERT (cond : Prop) [Decidable cond] (msg : String)
    (rest : Except String incflo) : Except String incflo :=
  if cond then rest else Except.error msg

/-- Lines 112-185: the branch on `fluid_model`, with the queries and the checks
of each model. -/
def read_fluid_model (pp : Inputs) (s : incflo) : Except String incflo :=
  if s.fluid_model = "newtonian" then
    Except.ok s
  else if s.fluid_model = "powerlaw" then
    let s := { s with n := query pp.n s.n }
    AMREX_ALWAYS_ASSERT (s.n > 0) "n > 0.0" <|
    AMREX_ALWAYS_ASSERT (s.n ≠ 1) "No point in using power-law rheology with n = 1" <|
    Except.ok s
  else if s.fluid_model = "bingham" then
    let s := { s with tau_0 := query pp.tau_0 s.tau_0 }
    AMREX_ALWAYS_ASSERT (s.tau_0 > 0) "No point in using Bingham rheology with tau_0 = 0" <|
    let s := { s with papa_reg := query pp.papa_reg s.papa_reg }
    AMREX_ALWAYS_ASSERT (s.papa_reg > 0)
      "Papanastasiou regularisation parameter must be positive" <|
    Except.ok s
  else if s.fluid_model = "hb" then
    let s := { s with n := query pp.n s.n }
    AMREX_ALWAYS_ASSERT (s.n > 0) "n > 0.0" <|
    AMREX_ALWAYS_ASSERT (s.n ≠ 1) "No point in using Herschel-Bulkley rheology with n = 1" <|
    let s := { s with tau_0 := query pp.tau_0 s.tau_0 }
    AMREX_ALWAYS_ASSERT (s.tau_0 > 0)
      "No point in using Herschel-Bulkley rheology with tau_0 = 0" <|
    let s := { s with papa_reg := query pp.papa_reg s.papa_reg }
    AMREX_ALWAYS_ASSERT (s.papa_reg > 0)
      "Papanastasiou regularisation parameter must be positive" <|
    Except.ok s
  else if s.fluid_model = "smd" then
    let s := { s with n := query pp.n s.n }
    AMREX_ALWAYS_ASSERT (s.n > 0) "n > 0.0" <|
    let s := { s with tau_0 := query pp.tau_0 s.tau_0 }
    AMREX_ALWAYS_ASSERT (s.tau_0 > 0)
      "No point in using de Souza Mendes-Dutra rheology with tau_0 = 0" <|
    let s := { s with eta_0 := query pp.eta_0 s.eta_0 }
    AMREX_ALWAYS_ASSERT (s.eta_0 > 0) "eta_0 > 0.0" <|
    Except.ok s
  else
    Except.error "Unknown fluid_model! Choose either newtonian, powerlaw, bingham, hb, smd"

/-- The function `incflo::ReadParameters()` on the members modelled here: the
object after the call, or the message of the abort. -/
def ReadParameters (pp : Inputs) (s : incflo) : Except String incflo :=
  let s := { s with
    stop_time := query pp.stop_time s.stop_time,
    max_step := query pp.max_step s.max_step,
    steady_state := query pp.steady_state s.steady_state,
    plot_per := query pp.plot_per s.plot_per,
    incflo_verbose := query pp.verbose s.incflo_verbose,
    cfl := query pp.cfl s.cfl,
    fixed_dt := query pp.fixed_dt s.fixed_dt,
    steady_state_tol := query pp.steady_state_tol s.steady_state_tol,
    gravity := query pp.gravity s.gravity,
    ro_0 := query pp.ro_0 s.ro_0 }
  AMREX_ALWAYS_ASSERT (s.ro_0 ≥ 0) "ro_0 >= 0.0" <|
  let s := { s with mu := query pp.mu s.mu }
  AMREX_ALWAYS_ASSERT (s.mu > 0) "mu > 0.0" <|
  let s := { s with fluid_model := query pp.fluid_model "newtonian" }
  read_fluid_model pp s

/-! ## Notions of the specification -/

/-- The density values of the uncovered cells of the levels `0..finest_level`. -/
def densities (s : incflo) : List ℚ :=
  (List.range (s.finest_level + 1)).flatMap
    (fun lev => ((s.ro.getD lev []).filter (fun c => !c.covered)).map (fun c => c.data.getD 0 0))

/-- The next multiple of `plot_per` after `cur_time`, where a `cur_time` within
`eps` below a multiple counts as having reached it (as in the comparison of
line 152). -/
def next_plot_time (s : incflo) : ℚ := ((⌊(s.cur_time + eps) / s.plot_per⌋ : ℤ) + 1) * s.plot_per

/-- The largest of a quantity over the three velocity components. -/
def worst3 (f : ℕ → ℚ) : ℚ := max (max (f 0) (f 1)) (f 2)

/-- The relative change without a guard on the baseline:
`sum|vel - vel_old| / sum|vel_old|` for component `i` of level `lev`. -/
def ratio_change (s : incflo) (lev i : ℕ) : ℚ :=
  Norm (diff_vel s) lev i 1 / Norm s.vel_old lev i 1

/-- The relative change with the guard on the baseline: the ratio when
`sum|vel_old| > 1e-15` and 0 otherwise. -/
def guarded_change (s : incflo) (lev i : ℕ) : ℚ :=
  if Norm s.vel_old lev i 1 > 1 / 10 ^ 15 then ratio_change s lev i else 0

/-- Modelled from the spec: the contract of `ApplyProjection`, which is declared
in incflo.H and whose body is not among the sources.  Section 3 of the spec:
"After a projection call, the velocity field is divergence-free (up to solver
tolerance)".  Here `divergence` is the norm of the discrete divergence of a
velocity field and `tol` the solver tolerance. -/
def projection_contract (divergence : List MultiFab → ℚ) (tol : ℚ) (c : Collaborators) : Prop :=
  ∀ (s : incflo) (time scale : ℚ), |divergence (c.ApplyProjection s time scale).1| ≤ tol

/-- The parameter sets the specification accepts: `ro_0 >= 0`, `mu > 0` and a
fluid model with its own parameters in range. -/
def accepted_parameters (ro_0 mu n tau_0 papa_reg eta_0 : ℚ) (fluid_model : String) : Prop :=
  ro_0 ≥ 0 ∧ mu > 0 ∧
    (fluid_model = "newtonian" ∨
      (fluid_model = "powerlaw" ∧ n > 0 ∧ n ≠ 1) ∨
      (fluid_model = "bingham" ∧ tau_0 > 0 ∧ papa_reg > 0) ∨
      (fluid_model = "hb" ∧ n > 0 ∧ n ≠ 1 ∧ tau_0 > 0 ∧ papa_reg > 0) ∨
      (fluid_model = "smd" ∧ n > 0 ∧ tau_0 > 0 ∧ eta_0 > 0))

/-- The array of the object that a `FieldId` names. -/
def read_field (s : incflo) : FieldId → List MultiFab
  | FieldId.conv => s.conv
  | FieldId.conv_old => s.conv_old
  | FieldId.vel => s.vel
  | FieldId.vel_old => s.vel_old

/-- The object with the array that a `FieldId` names replaced. -/
def write_field (s : incflo) (v : List MultiFab) : FieldId → incflo
  | FieldId.conv => { s with conv := v }
  | FieldId.conv_old => { s with conv_old := v }
  | FieldId.vel => { s with vel := v }
  | FieldId.vel_old => { s with vel_old := v }

/-- The effect on the members of one step of a sequence, carried out with the
arguments it names: `ComputeUGradU(dst, src, time)` writes the convective term
of `src` into `dst`, `UpdateDerivedQuantities()` writes the viscosity, the
explicit update runs the level loop `update` of the stage on the velocity,
`solve(vel, ro, eta, dt)` and `ApplyProjection(time, scale)` write the fields
they return, and `ComputeDt` stores the time step.  The boundary fills write
ghost cells and boundary values, which the cells of a `MultiFab` here do not
include, and the diagnostic writes nothing. -/
def Step.effect (c : Collaborators) (sqrt : ℚ → ℚ)
    (update : incflo → ℕ → MultiFab → MultiFab) (s : incflo) : Step → incflo
  | Step.FillScalarBC => s
  | Step.FillVelocityBC _ _ => s
  | Step.ComputeDt initialisation => Incflo.ComputeDt sqrt s initialisation
  | Step.ComputeUGradU dst src time =>
      write_field s (c.ComputeUGradU s (read_field s src) time) dst
  | Step.UpdateDerivedQuantities => { s with eta := c.UpdateDerivedQuantities s }
  | Step.explicit_update => { s with vel := for_levels s.finest_level (update s) s.vel }
  | Step.solve dt => { s with vel := c.solve s.vel s.ro s.eta dt }
  | Step.ApplyProjection time scaling_factor =>
      { s with vel := (c.ApplyProjection s time scaling_factor).1,
               gp := (c.ApplyProjection s time scaling_factor).2 }
  | Step.PrintMaxValues _ => s

/-- The members after the steps of a sequence have been carried out one after
the other, each once. -/
def run_steps (c : Collaborators) (sqrt : ℚ → ℚ)
    (update : incflo → ℕ → MultiFab → MultiFab) (steps : List Step) (s : incflo) : incflo :=
  steps.foldl (Step.effect c sqrt update) s

/-- The sequence of a predictor stage that starts at `cur_time` with the step
`dt`, as the specification orders it. -/
def predictor_sequence (cur_time dt : ℚ) : List Step :=
  [Step.ComputeUGradU FieldId.conv_old FieldId.vel_old cur_time,
    Step.UpdateDerivedQuantities, Step.explicit_update,
    Step.FillVelocityBC (cur_time + dt) 0, Step.solve dt,
    Step.ApplyProjection (cur_time + dt) dt, Step.FillVelocityBC (cur_time + dt) 0]

/-- The sequence of a corrector stage that starts at `cur_time` with the step
`dt`, as the specification orders it. -/
def corrector_sequence (cur_time dt : ℚ) : List Step :=
  [Step.ComputeUGradU FieldId.conv FieldId.vel (cur_time + dt),
    Step.UpdateDerivedQuantities, Step.explicit_update,
    Step.FillVelocityBC (cur_time + dt) 0, Step.solve dt,
    Step.ApplyProjection (cur_time + dt) dt, Step.FillVelocityBC (cur_time + dt) 0]

/-! ## Concrete states -/

/-- A level of two uncovered cells that hold the component values `v`. -/
def uniform (v : List ℚ) : MultiFab := [{ data := v }, { data := v }]

/-- The regression scenario of the spec: density 1, viscosity 0.1, velocity
(1, 0, 0) on a grid with spacing 0.1, `cfl = 0.5`, no gravity and no background
pressure gradient; every other member keeps its default of incflo.H. -/
def scenario : incflo :=
  { geom := [⟨[1 / 10, 1 / 10, 1 / 10]⟩],
    ro := [uniform [1]], eta := [uniform [1 / 10]],
    vel := [uniform [1, 0, 0]], vel_old := [uniform [1, 0, 0]] }

/-- The regression scenario on a later step: the previous step was 0.001. -/
def second_step : incflo := { scenario with dt := 1 / 1000, nstep := 3 }

/-- The regression scenario with a fixed time step. -/
def fixed_step : incflo := { scenario with fixed_dt := 1 / 50 }

/-- An inviscid unit flow on a unit grid: `conv_cfl = 1`, `diff_cfl = 0`,
`forc_cfl = 0`, so that `comb_cfl = 2` and the quotient of line 130 is `cfl`. -/
def unit_flow : incflo :=
  { geom := [⟨[1, 1, 1]⟩],
    ro := [uniform [1]], eta := [uniform [0]],
    vel := [uniform [1, 0, 0]], vel_old := [uniform [1, 0, 0]] }

/-- A zero initial velocity field for an inviscid flow with no external forcing,
before the first call of `ComputeDt` (`dt` is still the sentinel -1). -/
def zero_field : incflo :=
  { geom := [⟨[1, 1, 1]⟩],
    ro := [uniform [1]], eta := [uniform [0]],
    vel := [uniform [0, 0, 0]], vel_old := [uniform [0, 0, 0]] }

/-- One level whose two uncovered cells have the densities 1 and 2. -/
def two_densities : incflo :=
  { geom := [⟨[1, 1, 1]⟩],
    ro := [[{ data := [1] }, { data := [2] }]], eta := [uniform [1]],
    vel := [uniform [1, 0, 0]], vel_old := [uniform [1, 0, 0]] }

/-- The unit flow on its first step with a plot period of 0.1, shorter than the
CFL candidate 0.5. -/
def plot_long : incflo := { unit_flow with plot_per := 1 / 10 }

/-- The unit flow on its first step with a plot period of 1/64, shorter than
the candidate 0.05 of the initial call. -/
def plot_short : incflo := { unit_flow with plot_per := 1 / 64 }

/-- The unit flow on its first step at time 0.75 with plot period 1. -/
def plot_cross : incflo := { unit_flow with plot_per := 1, cur_time := 3 / 4 }

/-- The unit flow less than `eps` before the stop time 1, previous step 0.1. -/
def stop_near : incflo :=
  { unit_flow with stop_time := 1, cur_time := 1 - eps / 2, dt := 1 / 10, nstep := 3 }

/-- The unit flow at time 0.9 with stop time 1, previous step 0.1. -/
def stop_clipped : incflo :=
  { unit_flow with stop_time := 1, cur_time := 9 / 10, dt := 1 / 10, nstep := 3 }

/-- The regression scenario after its first step (`nstep = 1`) with an unchanged
velocity field. -/
def first_steps : incflo := { scenario with dt := 1 / 140, nstep := 1 }

/-- The zero field on a later step: the previous step was 0.01. -/
def zero_later : incflo := { zero_field with dt := 1 / 100, nstep := 3 }

/-- The regression scenario on a later step with a fixed time step. -/
def second_fixed : incflo := { second_step with fixed_dt := 1 / 50 }

/-- A field that jumps from 1e-16 to 1 in the x-velocity of both cells, on step
5 with `dt = 0.01`: the baseline `sum|vel_old| = 2e-16` is positive and not above
1e-15. -/
def tiny_baseline : incflo :=
  { geom := [⟨[1, 1, 1]⟩],
    ro := [uniform [1]], eta := [uniform [1]],
    vel := [uniform [1, 0, 0]], vel_old := [uniform [1 / 10 ^ 16, 0, 0]],
    dt := 1 / 100, nstep := 5 }

/-- A field at rest that is set in motion: `vel_old = 0` and `vel = (1, 0, 0)`
in both cells, on step 5 with `dt = 0.01`. -/
def zero_baseline : incflo :=
  { geom := [⟨[1, 1, 1]⟩],
    ro := [uniform [1]], eta := [uniform [1]],
    vel := [uniform [1, 0, 0]], vel_old := [uniform [0, 0, 0]],
    dt := 1 / 100, nstep := 5 }

/-- The regression scenario on step 5 with an unchanged velocity field. -/
def steady_flow : incflo := { scenario with dt := 1 / 140, nstep := 5 }

/-- The regression scenario on step 5 after the x-velocity changed from 1 to 2. -/
def changing_flow : incflo :=
  { scenario with dt := 1 / 140, nstep := 5, vel := [uniform [2, 0, 0]] }

/-- Collaborators for concrete runs: the convective term of a velocity field is
taken to be the field itself; the viscosity update, the diffusion solve and the
projection return the fields they are given. -/
def plain : Collaborators :=
  { ComputeUGradU := fun _ vel _ => vel,
    UpdateDerivedQuantities := fun s => s.eta,
    solve := fun vel _ _ _ => vel,
    ApplyProjection := fun s _ _ => (s.vel, s.gp) }

/-- One level of two cells at time 0.5 after a step of 0.1: density 2, velocity
(1, 0, 0), previous velocity (3, 0, 0), pressure gradient (1, 0, 0), gravity
(0, 0, -1), convective terms (5, 0, 0) and (7, 0, 0), and per-level arrays sized
for the level. -/
def stage_state : incflo :=
  { geom := [⟨[1, 1, 1]⟩], cur_time := 1 / 2, dt := 1 / 10, nstep := 5,
    gravity := [0, 0, -1],
    ro := [uniform [2]], eta := [uniform [0]],
    vel := [uniform [1, 0, 0]], vel_old := [uniform [3, 0, 0]],
    gp := [uniform [1, 0, 0]], conv := [uniform [5, 0, 0]], conv_old := [uniform [7, 0, 0]],
    t_old := [0], t_new := [0] }

/-- The x-velocities of the cells of level 0. -/
def row (vel : List MultiFab) : List ℚ := (vel.getD 0 []).map (fun c => c.data.getD 0 0)

/-- A discrete divergence for concrete runs: the cells of level 0 form a
periodic row of unit spacing with the flow along the row, and the norm is the
sum of `|u_(j+1) - u_j|` over the cells. -/
def row_divergence (vel : List MultiFab) : ℚ :=
  (List.zipWith (fun a b => |b - a|) (row vel) ((row vel).rotate 1)).sum

/-- The projection of the periodic row: every cell receives the mean
x-velocity of its level, which leaves a uniform flow as it is. -/
def mean_flow (vel : List MultiFab) : List MultiFab :=
  vel.map (fun lev => lev.map (fun c =>
    { c with data := [(lev.map (fun c => c.data.getD 0 0)).sum / lev.length, 0, 0] }))

/-- Collaborators for concrete runs whose projection is `mean_flow`. -/
def projecting : Collaborators :=
  { plain with ApplyProjection := fun s _ _ => (mean_flow s.vel, s.gp) }

/-- The unit flow run with the fixed step 0.1 (the CFL bound is 0.5), after
three steps (time 0.3), with plot period 0.35. -/
def fixed_plot : incflo :=
  { unit_flow with
    fixed_dt := 1 / 10, dt := 1 / 10, nstep := 3, cur_time := 3 / 10, plot_per := 7 / 20 }

/-- An inviscid flow of velocity (3, 0, 0) on a unit grid under the gravity
(4, 0, 0): `conv_cfl + diff_cfl = 3`, `forc_cfl = 4`, and `3^2 + 4 * 4 = 5^2`. -/
def forced_flow : incflo :=
  { geom := [⟨[1, 1, 1]⟩], gravity := [4, 0, 0],
    ro := [uniform [1]], eta := [uniform [0]],
    vel := [uniform [3, 0, 0]], vel_old := [uniform [3, 0, 0]] }

/-! ## Lemmas on the executable square root -/

/-- With enough fuel `isqrt_aux` returns the integer square root. -/
theorem isqrt_aux_spec : ∀ (fuel n : ℕ), n ≤ fuel →
    isqrt_aux fuel n * isqrt_aux fuel n ≤ n ∧
      n < (isqrt_aux fuel n + 1) * (isqrt_aux fuel n + 1) := by
  intro fuel
  induction fuel with
  | zero =>
    intro n hn
    have h0 : n = 0 := Nat.le_zero.mp hn
    subst h0
    simp [isqrt_aux]
  | succ f ih =>
    intro n hn
    by_cases h0 : n = 0
    · subst h0
      simp [isqrt_aux]
    · have hq : n / 4 ≤ f := by omega
      obtain ⟨h1, h2⟩ := ih (n / 4) hq
      have h3 : 4 * (n / 4) ≤ n := Nat.mul_div_le n 4
      have h4 : n < 4 * (n / 4) + 4 := by omega
      simp only [isqrt_aux, if_neg h0]
      split_ifs with hc
      · refine ⟨hc, ?_⟩
        nlinarith
      · refine ⟨?_, not_le.mp hc⟩
        nlinarith

/-- The function `isqrt` is the integer square root. -/
theorem isqrt_spec (n : ℕ) : isqrt n * isqrt n ≤ n ∧ n < (isqrt n + 1) * (isqrt n + 1) :=
  isqrt_aux_spec n n (le_refl n)

/-- The integer square root of a square. -/
theorem isqrt_mul_self (m : ℕ) : isqrt (m * m) = m := by
  obtain ⟨h1, h2⟩ := isqrt_spec (m * m)
  have ha : isqrt (m * m) ≤ m := by
    by_contra hc
    have : m + 1 ≤ isqrt (m * m) := by omega
    nlinarith
  have hb : m ≤ isqrt (m * m) := by
    by_contra hc
    have : isqrt (m * m) + 1 ≤ m := by omega
    nlinarith
  omega

/-- The executable square root is exact on squares of rationals. -/
theorem sqrtQ_mul_self (q : ℚ) : sqrtQ (q * q) = |q| := by
  unfold sqrtQ
  rw [Rat.mul_self_num, Rat.mul_self_den]
  have hnum : (q.num * q.num).toNat = q.num.natAbs * q.num.natAbs := by
    have h : q.num * q.num = ((q.num.natAbs * q.num.natAbs : ℕ) : ℤ) := by
      rw [Nat.cast_mul, Int.natAbs_mul_self']
    rw [h, Int.toNat_natCast]
  rw [hnum]
  have : q.num.natAbs * q.num.natAbs * (q.den * q.den)
      = (q.num.natAbs * q.den) * (q.num.natAbs * q.den) := by ring
  rw [this, isqrt_mul_self]
  have hden : (q.den : ℚ) ≠ 0 := by exact_mod_cast q.den_nz
  have habs : |q| = (q.num.natAbs : ℚ) / (q.den : ℚ) := by
    conv_lhs => rw [← Rat.num_div_den q]
    rw [abs_div, Nat.abs_cast, Nat.cast_natAbs, Int.cast_abs]
  rw [habs]
  push_cast
  field_simp
  ring

/-- The executable square root is never negative. -/
theorem sqrtQ_nonneg (x : ℚ) : 0 ≤ sqrtQ x := by
  unfold sqrtQ
  positivity

/-! ## Lemmas on the stages of ComputeDt -/

/-- Machine epsilon is positive. -/
theorem eps_pos : 0 < eps := by
  unfold eps; positivity

/-- On a non-negative argument `trunc` rounds down. -/
theorem trunc_le_of_nonneg {x : ℚ} (hx : 0 ≤ x) : trunc x ≤ x := by
  simp only [trunc, if_pos hx]
  exact Int.floor_le x

/-- On a non-negative argument `trunc` is the floor. -/
theorem trunc_of_nonneg {x : ℚ} (hx : 0 ≤ x) : trunc x = ((⌊x⌋ : ℤ) : ℚ) := by
  simp only [trunc, if_pos hx]

/-- On a negative argument `trunc` is not positive. -/
theorem trunc_nonpos_of_neg {x : ℚ} (hx : x < 0) : trunc x ≤ 0 := by
  simp only [trunc, if_neg (not_le.mpr hx)]
  have h : ⌈x⌉ ≤ 0 := Int.ceil_le.mpr (by simpa using hx.le)
  exact_mod_cast h

/-- The stop-time clip never enlarges the candidate. -/
theorem stop_clip_le (s : incflo) (d : ℚ) : stop_clip s d ≤ d := by
  unfold stop_clip
  split_ifs with h1 h2
  · linarith
  · exact le_refl d
  · exact le_refl d

/-- When the clip is active the clipped candidate ends at or before `stop_time`. -/
theorem stop_clip_le_stop (s : incflo) (d : ℚ) (hss : s.steady_state = false)
    (hstop : 0 < s.stop_time) : s.cur_time + stop_clip s d ≤ s.stop_time := by
  unfold stop_clip
  rw [if_pos ⟨by simp [hss], hstop⟩]
  split_ifs with h
  · linarith
  · linarith

/-- From a non-negative `cur_time` the plot-time alignment never enlarges a
positive candidate and gives a non-positive candidate otherwise. -/
theorem plot_align_le (s : incflo) (d : ℚ) (hcur : 0 ≤ s.cur_time) :
    plot_align s d ≤ max d 0 := by
  unfold plot_align
  split_ifs with h
  · obtain ⟨hpp, _⟩ := h
    rcases le_or_lt 0 ((s.cur_time + d) / s.plot_per) with hx | hx
    · have h1 := trunc_le_of_nonneg hx
      have h2 : trunc ((s.cur_time + d) / s.plot_per) * s.plot_per ≤ s.cur_time + d := by
        calc trunc ((s.cur_time + d) / s.plot_per) * s.plot_per
            ≤ (s.cur_time + d) / s.plot_per * s.plot_per :=
              mul_le_mul_of_nonneg_right h1 hpp.le
          _ = s.cur_time + d := div_mul_cancel₀ _ (ne_of_gt hpp)
      exact le_max_of_le_left (by linarith)
    · have h1 := trunc_nonpos_of_neg hx
      have h2 : trunc ((s.cur_time + d) / s.plot_per) * s.plot_per ≤ 0 :=
        mul_nonpos_of_nonpos_of_nonneg h1 hpp.le
      exact le_max_of_le_right (by linarith)
  · exact le_max_left d 0

/-- The growth limiter, when it applies, caps the candidate at 1.1 times the
previous step. -/
theorem growth_limit_le (s : incflo) (d : ℚ) (hdt : 0 < s.dt) (hplt : s.last_plt ≠ s.nstep) :
    growth_limit s d ≤ 11 / 10 * s.dt := by
  unfold growth_limit
  rw [if_pos ⟨hdt, hplt⟩]
  exact min_le_right _ _

/-- The degenerate guard passes a candidate that is not below `eps`. -/
theorem degenerate_guard_of_le (s : incflo) (d : ℚ) (hd : eps ≤ d) :
    degenerate_guard s d = d := by
  unfold degenerate_guard
  rw [if_neg (not_lt.mpr hd)]

/-- The value that `ComputeDt` stores in `dt`. -/
theorem ComputeDt_dt (sqrt : ℚ → ℚ) (s : incflo) (initialisation : ℤ) :
    (ComputeDt sqrt s initialisation).dt =
      if s.fixed_dt > 0 then s.fixed_dt
      else dt_candidate s initialisation (comb_cfl sqrt s) (dt_new sqrt s) := by
  unfold ComputeDt store_dt
  split_ifs <;> rfl

/-- Under the guard of line 141 the candidate does not depend on the quotient
of line 130. -/
theorem dt_candidate_of_small_comb (s : incflo) (initialisation : ℤ) (comb q q' : ℚ)
    (hcomb : comb ≤ eps) :
    dt_candidate s initialisation comb q = dt_candidate s initialisation comb q' := by
  unfold dt_candidate dt_clipped dt_limited comb_cfl_guard
  rw [if_pos hcomb, if_pos hcomb]

/-! ## Claims on ComputeDt -/

/-- C1 (evaluation at the failing input): on the first call (`dt` is the
sentinel -1) with a zero velocity field, zero viscosity and no forcing,
`comb_cfl` is 0, both fallbacks return `0.5 * dt`, and `ComputeDt` stores the
negative step -0.5, with `initialisation` 1 and 0 alike. -/
theorem ComputeDt_zero_field_first_call :
    zero_field.dt = -1 ∧ comb_cfl sqrtQ zero_field = 0 ∧
      (ComputeDt sqrtQ zero_field 1).dt = -1 / 2 ∧
      (ComputeDt sqrtQ zero_field 0).dt = -1 / 2 := by
  decide!

/-- C2: in adaptive mode (`fixed_dt <= 0`), with a previous `dt > 0`,
`cur_time >= 0` and `last_plt != nstep`, the `dt` stored by `ComputeDt` is at
most 1.1 times the previous `dt`, whatever the plot-time alignment, the
stop-time clip and the degenerate guard do after the growth limiter. -/
theorem ComputeDt_growth_bound (sqrt : ℚ → ℚ) (s : incflo) (initialisation : ℤ)
    (hfixed : s.fixed_dt ≤ 0) (hdt : 0 < s.dt) (hcur : 0 ≤ s.cur_time)
    (hplt : s.last_plt ≠ s.nstep) :
    (ComputeDt sqrt s initialisation).dt ≤ 11 / 10 * s.dt := by
  rw [ComputeDt_dt, if_neg (not_lt.mpr hfixed)]
  unfold dt_candidate degenerate_guard dt_clipped dt_limited
  split_ifs with h
  · linarith
  · refine le_trans (stop_clip_le s _) (le_trans (plot_align_le s _ hcur) ?_)
    exact max_le (growth_limit_le s _ hdt hplt) (by linarith)

/-- C2 at a concrete input: the regression scenario with previous step 0.001
has the CFL candidate 1/140, and the stored step is 0.0011. -/
theorem ComputeDt_growth_bound_witness :
    (ComputeDt sqrtQ second_step 0).dt = 11 / 10000 ∧
      (ComputeDt sqrtQ second_step 0).dt ≤ 11 / 10 * second_step.dt :=
  ⟨by decide!, ComputeDt_growth_bound sqrtQ second_step 0 (by decide!) (by decide!)
    (by decide!) (by decide!)⟩

/-- C3: the unit flow has the CFL candidate 0.5. With `plot_per = 0.1`, on a
first call with `initialisation = 0`, the growth limiter does not apply (`dt` is
still the sentinel -1), the crossing test of line 152 holds, and line 154 aligns
the candidate with the last multiple of `plot_per` not after
`cur_time + dt_new`, which is 0.5, not with the next one after `cur_time`, 0.1:
the stored `dt = 0.5` carries `cur_time + dt` beyond the next plot time by 0.4
and past the plot times 0.1 to 0.4. On the initial call (`initialisation = 1`,
candidate 0.05) with `plot_per = 1/64` the stored `dt = 3/64` passes the plot
times 1/64 and 2/64 in the same way. -/
theorem ComputeDt_plot_overshoot :
    (0 < plot_long.plot_per ∧ plot_long.fixed_dt ≤ 0 ∧ plot_long.cur_time = 0 ∧
        dt_limited plot_long 0 (comb_cfl sqrtQ plot_long) (dt_new sqrtQ plot_long) = 1 / 2 ∧
        trunc ((plot_long.cur_time + 1 / 2 + eps) / plot_long.plot_per) = 5 ∧
        trunc ((plot_long.cur_time + eps) / plot_long.plot_per) = 0 ∧
        plot_align plot_long (1 / 2) = 1 / 2 ∧
        (ComputeDt sqrtQ plot_long 0).dt = 1 / 2 ∧
        next_plot_time plot_long = 1 / 10 ∧
        plot_long.cur_time + (ComputeDt sqrtQ plot_long 0).dt
          = next_plot_time plot_long + 2 / 5) ∧
      (0 < plot_short.plot_per ∧ plot_short.fixed_dt ≤ 0 ∧ plot_short.cur_time = 0 ∧
        dt_limited plot_short 1 (comb_cfl sqrtQ plot_short) (dt_new sqrtQ plot_short)
          = 1 / 20 ∧
        plot_align plot_short (1 / 20) = 3 / 64 ∧
        (ComputeDt sqrtQ plot_short 1).dt = 3 / 64 ∧
        next_plot_time plot_short = 1 / 64 ∧
        plot_short.cur_time + (ComputeDt sqrtQ plot_short 1).dt
          = next_plot_time plot_short + 1 / 32) := by
  refine ⟨⟨by decide!, by decide!, by decide!, by decide!, by decide!, by decide!,
    by decide!, by decide!, by decide!, by decide!⟩,
    by decide!, by decide!, by decide!, by decide!, by decide!, by decide!, by decide!,
    by decide!⟩

/-- C4 as stated fails: less than `eps` before `stop_time = 1` the clipped
candidate `eps / 2` is below `eps`, the degenerate guard replaces it by half the
previous step, and `cur_time + dt` passes `stop_time`. -/
theorem ComputeDt_stop_overshoot :
    stop_near.steady_state = false ∧ 0 < stop_near.stop_time ∧ stop_near.fixed_dt ≤ 0 ∧
      dt_clipped stop_near 0 (comb_cfl sqrtQ stop_near) (dt_new sqrtQ stop_near) = eps / 2 ∧
      (ComputeDt sqrtQ stop_near 0).dt = 1 / 20 ∧
      ¬ (stop_near.cur_time + (ComputeDt sqrtQ stop_near 0).dt ≤ stop_near.stop_time) := by
  decide!

/-- C4 amended: with `steady_state` false, `stop_time > 0` and no fixed `dt`,
when the degenerate guard does not fire (the clipped candidate is not below
`eps`), the stored `dt` satisfies `cur_time + dt <= stop_time`. -/
theorem ComputeDt_stop_no_overshoot (sqrt : ℚ → ℚ) (s : incflo) (initialisation : ℤ)
    (hss : s.steady_state = false) (hstop : 0 < s.stop_time) (hfixed : s.fixed_dt ≤ 0)
    (hguard : eps ≤ dt_clipped s initialisation (comb_cfl sqrt s) (dt_new sqrt s)) :
    s.cur_time + (ComputeDt sqrt s initialisation).dt ≤ s.stop_time := by
  rw [ComputeDt_dt, if_neg (not_lt.mpr hfixed)]
  unfold dt_candidate
  rw [degenerate_guard_of_le s _ hguard]
  exact stop_clip_le_stop s _ hss hstop

/-- C4 amended at a concrete input: at time 0.9 with stop time 1 the limited
candidate 0.11 is clipped to 0.1 and the step ends on the stop time. -/
theorem ComputeDt_stop_no_overshoot_witness :
    (ComputeDt sqrtQ stop_clipped 0).dt = 1 / 10 ∧
      stop_clipped.cur_time + (ComputeDt sqrtQ stop_clipped 0).dt ≤ stop_clipped.stop_time :=
  ⟨by decide!, ComputeDt_stop_no_overshoot sqrtQ stop_clipped 0 (by decide!) (by decide!)
    (by decide!) (by decide!)⟩

/-- C5 as stated fails: the quotient of line 130 is computed before the guard of
line 141, so with `comb_cfl = 0` (zero velocity, zero viscosity, no forcing)
the division is reached with a zero divisor. -/
theorem ComputeDt_checked_zero_field :
    comb_cfl sqrtQ zero_field ≤ eps ∧
      ComputeDt_checked sqrtQ zero_field 1
        = Except.error "division by zero: 2.0 * cfl / comb_cfl" := by
  have h : comb_cfl sqrtQ zero_field = 0 := by decide!
  refine ⟨by rw [h]; exact eps_pos.le, ?_⟩
  unfold ComputeDt_checked
  rw [if_pos h]

/-- C5 amended: whenever `comb_cfl <= eps` the quotient `2 * cfl / comb_cfl`,
which line 130 computes before the guard, is discarded: the state that
`ComputeDt` returns is the one obtained from any other value `q` of the
quotient. -/
theorem ComputeDt_discards_quotient (sqrt : ℚ → ℚ) (s : incflo) (initialisation : ℤ) (q : ℚ)
    (hcomb : comb_cfl sqrt s ≤ eps) :
    ComputeDt sqrt s initialisation
      = store_dt s (dt_candidate s initialisation (comb_cfl sqrt s) q) := by
  unfold ComputeDt
  rw [dt_candidate_of_small_comb s initialisation (comb_cfl sqrt s) (dt_new sqrt s) q hcomb]

/-- C5 amended at a concrete input: for the zero field after a step of 0.01 the
stored step is the fallback 0.005, also when the quotient is given the value 7. -/
theorem ComputeDt_discards_quotient_witness :
    (ComputeDt sqrtQ zero_later 0).dt = 1 / 200 ∧
      ComputeDt sqrtQ zero_later 0
        = store_dt zero_later (dt_candidate zero_later 0 (comb_cfl sqrtQ zero_later) 7) :=
  ⟨by decide!, ComputeDt_discards_quotient sqrtQ zero_later 0 7 (by decide!)⟩

/-- C6: for every input with `cfl > 0`, positive grid spacing, a positive
density entering the diffusive bound and a previous `dt > 0`, the `dt` stored by
`ComputeDt` is again positive, for every value of `initialisation`, with
`fixed_dt` unset or positive and for every `plot_per`, `stop_time` and
`cur_time`.  (The proof rests on the previous `dt` alone; the other hypotheses
keep the divisors of the rational model away from zero.) -/
theorem ComputeDt_pos (sqrt : ℚ → ℚ) (s : incflo) (initialisation : ℤ)
    (_hcfl : 0 < s.cfl) (_hdx : 0 < (dx s).getD 0 0) (_hdy : 0 < (dx s).getD 1 0)
    (_hdz : 0 < (dx s).getD 2 0) (_hro : 0 < romin s) (hdt : 0 < s.dt) :
    0 < (ComputeDt sqrt s initialisation).dt := by
  rw [ComputeDt_dt]
  split_ifs with hfixed
  · exact hfixed
  · unfold dt_candidate degenerate_guard
    split_ifs with h
    · linarith
    · exact lt_of_lt_of_le eps_pos (not_lt.mp h)

/-- C6 at a concrete input: the regression scenario after a step of 0.001, on
an ordinary and on an initial call, and with a fixed step. -/
theorem ComputeDt_pos_witness :
    0 < (ComputeDt sqrtQ second_step 0).dt ∧ 0 < (ComputeDt sqrtQ second_step 1).dt ∧
      0 < (ComputeDt sqrtQ second_fixed 0).dt :=
  ⟨ComputeDt_pos sqrtQ second_step 0 (by decide!) (by decide!) (by decide!) (by decide!)
      (by decide!) (by decide!),
    ComputeDt_pos sqrtQ second_step 1 (by decide!) (by decide!) (by decide!) (by decide!)
      (by decide!) (by decide!),
    ComputeDt_pos sqrtQ second_fixed 0 (by decide!) (by decide!)
      (by decide!) (by decide!) (by decide!) (by decide!)⟩

/-- C7 (evaluation at the failing input): with one level whose two uncovered
cells have the densities 1 and 2, `romin`, the smallest per-level `Norm(ro, lev,
0, 0)`, is the largest density 2, although a cell has the smaller density 1. -/
theorem romin_two_densities :
    romin two_densities = 2 ∧ densities two_densities = [1, 2] ∧
      ¬ (∀ d ∈ densities two_densities, romin two_densities ≤ d) := by
  decide!

/-- C8: when `comb_cfl > eps` and no limiter acts (previous `dt < 0`,
`plot_per <= 0`, `stop_time <= 0`, `fixed_dt <= 0`, candidate not below `eps`),
`ComputeDt` stores `s * 2 * cfl / (C + V + sqrt ((C + V)^2 + 4 F))` with
`C = max (umax/dx, vmax/dy, wmax/dz)`,
`V = 2 (etamax/romin) (1/dx^2 + 1/dy^2 + 1/dz^2)`,
`F = sum_d |gravity_d - |gp0_d|| / dx_d`, and `s = 0.1` when `initialisation`
is set and 1 otherwise. -/
theorem ComputeDt_cfl_formula (sqrt : ℚ → ℚ) (s : incflo) (initialisation : ℤ)
    (hcomb : eps < comb_cfl sqrt s) (hdt : s.dt < 0) (hpp : s.plot_per ≤ 0)
    (hstop : s.stop_time ≤ 0) (hfixed : s.fixed_dt ≤ 0)
    (hcand : eps ≤ initial_scale initialisation (dt_new sqrt s)) :
    let C := max (max (umax s / (dx s).getD 0 0) (vmax s / (dx s).getD 1 0))
      (wmax s / (dx s).getD 2 0)
    let V := 2 * (etamax s / romin s)
      * (1 / (dx s).getD 0 0 ^ 2 + 1 / (dx s).getD 1 0 ^ 2 + 1 / (dx s).getD 2 0 ^ 2)
    let F := abs (s.gravity.getD 0 0 - abs (s.gp0.getD 0 0)) / (dx s).getD 0 0
      + abs (s.gravity.getD 1 0 - abs (s.gp0.getD 1 0)) / (dx s).getD 1 0
      + abs (s.gravity.getD 2 0 - abs (s.gp0.getD 2 0)) / (dx s).getD 2 0
    (ComputeDt sqrt s initialisation).dt
      = (if initialisation ≠ 0 then 1 / 10 else 1)
          * (2 * s.cfl / (C + V + sqrt ((C + V) ^ 2 + 4 * F))) := by
  intro C V F
  have hC : C = conv_cfl s := by
    simp only [C, conv_cfl, idx, idy, idz, mul_one_div]
  have hV : V = diff_cfl s := by
    simp only [V, diff_cfl, idx, idy, idz]
    ring
  have hF : F = forc_cfl s := by
    simp only [F, forc_cfl, idx, idy, idz, mul_one_div]
  have hval : dt_candidate s initialisation (comb_cfl sqrt s) (dt_new sqrt s)
      = initial_scale initialisation (dt_new sqrt s) := by
    unfold dt_candidate dt_clipped dt_limited
    have h1 : comb_cfl_guard s (comb_cfl sqrt s) (initial_scale initialisation (dt_new sqrt s))
        = initial_scale initialisation (dt_new sqrt s) := by
      unfold comb_cfl_guard
      rw [if_neg (not_le.mpr hcomb)]
    have h2 : ∀ d, growth_limit s d = d := by
      intro d
      unfold growth_limit
      rw [if_neg (fun h => absurd h.1 (not_lt.mpr hdt.le))]
    have h3 : ∀ d, plot_align s d = d := by
      intro d
      unfold plot_align
      rw [if_neg (fun h => absurd h.1 (not_lt.mpr hpp))]
    have h4 : ∀ d, stop_clip s d = d := by
      intro d
      unfold stop_clip
      rw [if_neg (fun h => absurd h.2 (not_lt.mpr hstop))]
    rw [h1, h2, h3, h4, degenerate_guard_of_le s _ hcand]
  rw [ComputeDt_dt, if_neg (not_lt.mpr hfixed), hval, hC, hV, hF]
  unfold initial_scale dt_new dt_new_at comb_cfl comb_cfl_at
  split_ifs <;> ring

/-- C8 at the scenario of the spec: density 1, viscosity 0.1, velocity (1, 0, 0),
spacing 0.1, `cfl = 0.5`, no gravity and no `gp0` give `conv_cfl = 10`,
`diff_cfl = 60`, `comb_cfl = 140` and `dt = 1/140` (1/1400 on the initial call). -/
theorem ComputeDt_cfl_formula_witness :
    conv_cfl scenario = 10 ∧ diff_cfl scenario = 60 ∧ comb_cfl sqrtQ scenario = 140 ∧
      (ComputeDt sqrtQ scenario 0).dt = 1 / 140 ∧
      (ComputeDt sqrtQ scenario 1).dt = 1 / 1400 :=
  ⟨by decide!, by decide!, by decide!,
    (ComputeDt_cfl_formula sqrtQ scenario 0 (by decide!) (by decide!) (by decide!)
      (by decide!) (by decide!) (by decide!)).trans (by decide!),
    (ComputeDt_cfl_formula sqrtQ scenario 1 (by decide!) (by decide!) (by decide!)
      (by decide!) (by decide!) (by decide!)).trans (by decide!)⟩

/-- C9: with `fixed_dt > 0`, `ComputeDt` stores `dt = fixed_dt`, whatever the
field extrema, the previous `dt`, `plot_per`, `stop_time`, `cur_time` and
`initialisation` are; with `fixed_dt <= 0` it stores the computed candidate. -/
theorem ComputeDt_fixed_dt (sqrt : ℚ → ℚ) (s : incflo) (initialisation : ℤ) :
    (0 < s.fixed_dt → (ComputeDt sqrt s initialisation).dt = s.fixed_dt) ∧
      (s.fixed_dt ≤ 0 → (ComputeDt sqrt s initialisation).dt
        = dt_candidate s initialisation (comb_cfl sqrt s) (dt_new sqrt s)) := by
  rw [ComputeDt_dt]
  constructor
  · intro h
    rw [if_pos h]
  · intro h
    rw [if_neg (not_lt.mpr h)]

/-- C9 at concrete inputs: the regression scenario with `fixed_dt = 0.02` stores
0.02 although the candidate is 1/140; without a fixed step it stores 1/140. -/
theorem ComputeDt_fixed_dt_witness :
    (ComputeDt sqrtQ fixed_step 0).dt = 1 / 50 ∧
      dt_candidate fixed_step 0 (comb_cfl sqrtQ fixed_step) (dt_new sqrtQ fixed_step) = 1 / 140 ∧
      (ComputeDt sqrtQ scenario 0).dt
        = dt_candidate scenario 0 (comb_cfl sqrtQ scenario) (dt_new sqrtQ scenario) :=
  ⟨((ComputeDt_fixed_dt sqrtQ fixed_step 0).1 (by decide!)).trans (by decide!), by decide!,
    (ComputeDt_fixed_dt sqrtQ scenario 0).2 (by decide!)⟩

/-! ## Claims on SteadyStateReached -/

/-- C10: for every state with `nstep < 2`, `SteadyStateReached` returns false,
whatever `vel`, `vel_old`, `dt` and `steady_state_tol` are. -/
theorem SteadyStateReached_first_steps (s : incflo) (hnstep : s.nstep < 2) :
    SteadyStateReached s = false := by
  unfold SteadyStateReached
  rw [if_pos hnstep]

/-- C10 at a concrete input: with `nstep = 1` and `vel` equal to `vel_old` on
every cell, every level satisfies the convergence conditions and the function
still returns false. -/
theorem SteadyStateReached_first_steps_witness :
    first_steps.vel = first_steps.vel_old ∧ reached first_steps = true ∧
      SteadyStateReached first_steps = false :=
  ⟨by decide!, by decide!, SteadyStateReached_first_steps first_steps (by decide!)⟩

/-! ## Lemmas on the reductions of SteadyStateReached -/

/-- A running maximum is at least its starting value. -/
theorem foldl_max_ge (l : List ℚ) (a : ℚ) : a ≤ l.foldl max a := by
  induction l generalizing a with
  | nil => exact le_refl a
  | cons x xs ih => exact le_trans (le_max_left a x) (ih (max a x))

/-- A running sum of non-negative values from a non-negative start is
non-negative. -/
theorem foldl_add_nonneg (l : List ℚ) (a : ℚ) (ha : 0 ≤ a) (hl : ∀ x ∈ l, 0 ≤ x) :
    0 ≤ l.foldl (fun a b => a + b) a := by
  induction l generalizing a with
  | nil => exact ha
  | cons x xs ih =>
    exact ih (a + x) (add_nonneg ha (hl x (List.mem_cons_self x xs)))
      (fun y hy => hl y (List.mem_cons_of_mem x hy))

/-- Both reductions of `Norm` are non-negative. -/
theorem Norm_nonneg (mf : List MultiFab) (lev comp : ℕ) (norm_type : ℤ) :
    0 ≤ Norm mf lev comp norm_type := by
  unfold Norm
  simp only
  split_ifs with h
  · exact foldl_max_ge _ 0
  · refine foldl_add_nonneg _ 0 (le_refl 0) ?_
    intro x hx
    obtain ⟨c, _, rfl⟩ := List.mem_map.mp hx
    exact abs_nonneg _

/-- The relative change of lines 433-435 is the guarded ratio. -/
theorem relchange_eq_guarded (s : incflo) (lev i : ℕ) :
    relchange s lev i = guarded_change s lev i := rfl

/-- The relative change is non-negative. -/
theorem relchange_nonneg (s : incflo) (lev i : ℕ) : 0 ≤ relchange s lev i := by
  unfold relchange
  simp only
  split_ifs with h
  · exact div_nonneg (Norm_nonneg _ _ _ _) (Norm_nonneg _ _ _ _)
  · exact le_refl 0

/-- The running maximum from 0 over the components 0, 1, 2 of non-negative
values is the largest of the three. -/
theorem foldl_max_range3 (f : ℕ → ℚ) (h0 : 0 ≤ f 0) :
    (List.range 3).foldl (fun m i => max m (f i)) 0 = worst3 f := by
  have h : List.range 3 = [0, 1, 2] := by decide
  rw [h]
  simp only [List.foldl, worst3]
  rw [max_eq_right h0]

/-- The conjunction accumulated over a list of levels. -/
theorem foldl_and_eq_true (f : ℕ → Bool) (l : List ℕ) (b : Bool) :
    l.foldl (fun r lev => r && f lev) b = true ↔ b = true ∧ ∀ lev ∈ l, f lev = true := by
  induction l generalizing b with
  | nil => simp
  | cons x xs ih =>
    rw [List.foldl_cons, ih]
    simp only [Bool.and_eq_true, List.mem_cons, forall_eq_or_imp]
    tauto

/-- The decision of lines 450-453 level by level. -/
theorem reached_iff (s : incflo) :
    reached s = true ↔
      ∀ lev, lev ≤ s.finest_level → (condition1 s lev = true ∨ condition2 s lev = true) := by
  unfold reached
  rw [foldl_and_eq_true]
  simp only [true_and, List.mem_range, Bool.or_eq_true, Nat.lt_succ_iff]

/-! ## Claims on the steady-state decision -/

/-- C11 as stated fails: with a baseline `sum|vel_old| = 2e-16`, positive but not
above 1e-15, the code takes the relative change as 0 and reports a steady
state, although the largest change (about 1) is not below
`steady_state_tol * dt` and the ratio `sum|vel - vel_old| / sum|vel_old|` (about
1e16) is not below `steady_state_tol`. -/
theorem SteadyStateReached_tiny_baseline :
    2 ≤ tiny_baseline.nstep ∧ SteadyStateReached tiny_baseline = true ∧
      ¬ (∀ lev, lev ≤ tiny_baseline.finest_level →
          (worst3 (fun i => Norm (diff_vel tiny_baseline) lev i 0)
              < tiny_baseline.steady_state_tol * tiny_baseline.dt ∨
            worst3 (ratio_change tiny_baseline lev) < tiny_baseline.steady_state_tol)) := by
  refine ⟨by decide!, by decide!, fun h => ?_⟩
  have h0 := h 0 (Nat.zero_le _)
  revert h0
  decide!

/-- C11 amended: for every state with `nstep >= 2`, `SteadyStateReached` returns
true if and only if every level in `[0, finest_level]` is converged, where a
level is converged iff the largest over the 3 components of `max|vel - vel_old|`
is below `steady_state_tol * dt`, or the largest over the 3 components of the
relative change is below `steady_state_tol`; the relative change is
`sum|vel - vel_old| / sum|vel_old|` when `sum|vel_old| > 1e-15` and 0 otherwise. -/
theorem SteadyStateReached_iff (s : incflo) (hnstep : 2 ≤ s.nstep) :
    SteadyStateReached s = true ↔
      ∀ lev, lev ≤ s.finest_level →
        (worst3 (fun i => Norm (diff_vel s) lev i 0) < s.steady_state_tol * s.dt ∨
          worst3 (guarded_change s lev) < s.steady_state_tol) := by
  unfold SteadyStateReached
  rw [if_neg (not_lt.mpr hnstep), reached_iff]
  have h1 : ∀ lev, max_change s lev = worst3 (fun i => Norm (diff_vel s) lev i 0) :=
    fun lev => foldl_max_range3 _ (Norm_nonneg _ _ _ _)
  have h2 : ∀ lev, max_relchange s lev = worst3 (guarded_change s lev) :=
    fun lev => foldl_max_range3 (relchange s lev) (relchange_nonneg s lev 0)
  simp only [condition1, condition2, decide_eq_true_eq, h1, h2]

/-- C11 amended at concrete inputs: an unchanged field on step 5 is steady; after
a jump of the x-velocity from 1 to 2 the level is not converged (change 1,
relative change 1) and the result is false. -/
theorem SteadyStateReached_iff_witness :
    SteadyStateReached steady_flow = true ∧ SteadyStateReached changing_flow = false ∧
      (SteadyStateReached changing_flow = true ↔
        ∀ lev, lev ≤ changing_flow.finest_level →
          (worst3 (fun i => Norm (diff_vel changing_flow) lev i 0)
              < changing_flow.steady_state_tol * changing_flow.dt ∨
            worst3 (guarded_change changing_flow lev) < changing_flow.steady_state_tol)) :=
  ⟨by decide!, by decide!, SteadyStateReached_iff changing_flow (by decide!)⟩

/-- C12: for every level and component whose baseline `sum|vel_old|` is at most
1e-15 (in particular exactly 0) the relative change is 0 and the division by
the baseline is not evaluated (the checked variant returns 0 without reaching
`checked_div`); when this holds for the three components of a level and
`steady_state_tol > 0`, the relative criterion of the level is satisfied; and
for no input does the checked variant report a zero divisor. -/
theorem relchange_zero_baseline (s : incflo) (lev : ℕ) :
    (∀ i, Norm s.vel_old lev i 1 ≤ 1 / 10 ^ 15 →
        relchange s lev i = 0 ∧ relchange_checked s lev i = Except.ok 0) ∧
      ((∀ i, i < 3 → Norm s.vel_old lev i 1 ≤ 1 / 10 ^ 15) → 0 < s.steady_state_tol →
        condition2 s lev = true) ∧
      (∀ i, relchange_checked s lev i = Except.ok (relchange s lev i)) := by
  have hz : ∀ i, Norm s.vel_old lev i 1 ≤ 1 / 10 ^ 15 → relchange s lev i = 0 := by
    intro i hi
    unfold relchange
    simp only
    rw [if_neg (not_lt.mpr hi)]
  refine ⟨fun i hi => ⟨hz i hi, ?_⟩, fun hall htol => ?_, fun i => ?_⟩
  · unfold relchange_checked
    simp only
    rw [if_neg (not_lt.mpr hi)]
  · unfold condition2 max_relchange
    rw [foldl_max_range3 (relchange s lev) (relchange_nonneg s lev 0)]
    unfold worst3
    rw [hz 0 (hall 0 (by norm_num)), hz 1 (hall 1 (by norm_num)), hz 2 (hall 2 (by norm_num))]
    simpa using htol
  · unfold relchange_checked relchange checked_div
    simp only
    split_ifs with h1 h2
    · rw [h2] at h1
      exact absurd h1 (by norm_num)
    · rfl
    · rfl

/-- C12 at a concrete input: with `vel_old = 0` on every cell and a new velocity
of 1 the checked relative change is 0 for each component and the relative
criterion holds, although the change itself is 1. -/
theorem relchange_zero_baseline_witness :
    Norm zero_baseline.vel_old 0 0 1 = 0 ∧ Norm (diff_vel zero_baseline) 0 0 1 = 2 ∧
      relchange_checked zero_baseline 0 0 = Except.ok 0 ∧ condition2 zero_baseline 0 = true :=
  ⟨by decide!, by decide!,
    ((relchange_zero_baseline zero_baseline 0).1 0 (by decide!)).2,
    (relchange_zero_baseline zero_baseline 0).2.1 (fun i hi => by interval_cases i <;> decide!)
      (by decide!)⟩

/-! ## Claims on the order of the fallbacks -/

/-- C20: in adaptive mode (`fixed_dt <= 0`) `ComputeDt` applies, in this order,
the `comb_cfl` guard, the growth limiter, the plot-time alignment, the stop-time
clip and last the degenerate guard: if the candidate after the stop-time clip is
below `eps` the stored `dt` is exactly `0.5 *` (previous `dt`), and otherwise it
is exactly that clipped candidate. -/
theorem ComputeDt_fallback_order (sqrt : ℚ → ℚ) (s : incflo) (initialisation : ℤ)
    (hfixed : s.fixed_dt ≤ 0) :
    let clipped := stop_clip s (plot_align s (growth_limit s
      (comb_cfl_guard s (comb_cfl sqrt s)
        (initial_scale initialisation (2 * s.cfl / comb_cfl sqrt s)))))
    (clipped < eps → (ComputeDt sqrt s initialisation).dt = 1 / 2 * s.dt) ∧
      (eps ≤ clipped → (ComputeDt sqrt s initialisation).dt = clipped) := by
  intro clipped
  have hd : (ComputeDt sqrt s initialisation).dt = degenerate_guard s clipped := by
    rw [ComputeDt_dt, if_neg (not_lt.mpr hfixed)]
    rfl
  rw [hd]
  unfold degenerate_guard
  constructor
  · intro h
    rw [if_pos h]
  · intro h
    rw [if_neg (not_lt.mpr h)]

/-- C20 at concrete inputs: less than `eps` before the stop time the clipped
candidate `eps / 2` gives way to half the previous step 0.1; at time 0.9 the
clipped candidate 0.1 is stored as it is. -/
theorem ComputeDt_fallback_order_witness :
    (ComputeDt sqrtQ stop_near 0).dt = 1 / 2 * stop_near.dt ∧
      (ComputeDt sqrtQ stop_clipped 0).dt = 1 / 10 :=
  ⟨(ComputeDt_fallback_order sqrtQ stop_near 0 (by decide!)).1 (by decide!),
    ((ComputeDt_fallback_order sqrtQ stop_clipped 0 (by decide!)).2 (by decide!)).trans
      (by decide!)⟩

/-! ## Lemmas on the level loops and the MultiFab operations -/

/-- Entry `lev` of a per-level array after the first `m` iterations of a level
loop. -/
theorem foldl_set_getElem? {α : Type} [Inhabited α] (body : ℕ → α → α) (a : List α) (m lev : ℕ) :
    ((List.range m).foldl (fun a lev => a.set lev (body lev (a.getD lev default))) a)[lev]?
      = if lev < m then a[lev]?.map (body lev) else a[lev]? := by
  induction m with
  | zero => simp
  | succ k ih =>
    rw [List.range_succ, List.foldl_append]
    simp only [List.foldl_cons, List.foldl_nil]
    rw [List.getElem?_set]
    by_cases hk : k = lev
    · subst hk
      have hlen : ∀ (l : List ℕ) (b : List α),
          (l.foldl (fun a lev => a.set lev (body lev (a.getD lev default))) b).length
            = b.length := by
        intro l
        induction l with
        | nil => intro b; rfl
        | cons x xs ihx => intro b; rw [List.foldl_cons, ihx, List.length_set]
      have ihk := ih
      rw [if_neg (lt_irrefl k)] at ihk
      rw [if_pos rfl, if_pos (Nat.lt_succ_self k), hlen, List.getD_eq_getElem?_getD, ihk]
      by_cases hl : k < a.length
      · rw [if_pos hl, List.getElem?_eq_getElem hl]
        rfl
      · rw [if_neg hl, List.getElem?_eq_none (not_lt.mp hl)]
        rfl
    · rw [if_neg hk, ih]
      by_cases hlt : lev < k
      · rw [if_pos hlt, if_pos (Nat.lt_succ_of_lt hlt)]
      · have : ¬ lev < k + 1 := by
          intro h
          rcases Nat.lt_succ_iff_lt_or_eq.mp h with h1 | h1
          · exact hlt h1
          · exact hk h1.symm
        rw [if_neg hlt, if_neg this]

/-- Entry `lev` of a per-level array after a level loop. -/
theorem for_levels_getElem? {α : Type} [Inhabited α] (finest_level : ℕ) (body : ℕ → α → α)
    (a : List α) (lev : ℕ) :
    (for_levels finest_level body a)[lev]?
      = if lev ≤ finest_level then a[lev]?.map (body lev) else a[lev]? := by
  unfold for_levels
  rw [foldl_set_getElem?]
  simp only [Nat.lt_succ_iff]
/-- The cell that the level loop of `ApplyPredictor` leaves at position `j`,
from the cells at that position on entry. -/
theorem predictor_level_getElem? (s : incflo) (lev j : ℕ) (vel_lev : MultiFab)
    (cu cc cr cg : Cell) (hu : vel_lev[j]? = some cu)
    (hc : (s.conv_old.getD lev [])[j]? = some cc) (hr : (s.ro.getD lev [])[j]? = some cr)
    (hg : (s.gp.getD lev [])[j]? = some cg) :
    (predictor_level s lev vel_lev)[j]? = some
      { covered := cu.covered,
        data := (List.range 3).map (fun d =>
          ((cu.data.getD d 0 + s.dt * cc.data.getD d 0 + s.dt * s.gravity.getD d 0)
              * cr.data.getD 0 0 + -s.dt * cg.data.getD d 0 + -s.dt * s.gp0.getD d 0)
            / cr.data.getD 0 0) } := by
  have h3 : List.range 3 = [0, 1, 2] := by decide
  simp only [predictor_level, Saxpy, plus, Multiply, Divide, h3, List.foldl_cons, List.foldl_nil,
    List.getElem?_zipWith, List.getElem?_map, hu, hc, hr, hg, Option.map_some',
    List.map_cons, List.map_nil]
  simp

/-- The cell that the level loop of `ApplyCorrector` leaves at position `j`,
from the cells at that position on entry. -/
theorem corrector_level_getElem? (s : incflo) (lev j : ℕ) (vel_lev : MultiFab)
    (co cv cc cr cg : Cell) (ho : (s.vel_old.getD lev [])[j]? = some co)
    (hv : (s.conv.getD lev [])[j]? = some cv)
    (hc : (s.conv_old.getD lev [])[j]? = some cc) (hr : (s.ro.getD lev [])[j]? = some cr)
    (hg : (s.gp.getD lev [])[j]? = some cg) :
    (corrector_level s lev vel_lev)[j]? = some
      { covered := co.covered,
        data := (List.range 3).map (fun d =>
          ((1 * co.data.getD d 0 + s.dt / 2 * cv.data.getD d 0 + s.dt / 2 * cc.data.getD d 0
                + s.dt * s.gravity.getD d 0)
              * cr.data.getD 0 0 + -s.dt * cg.data.getD d 0 + -s.dt * s.gp0.getD d 0)
            / cr.data.getD 0 0) } := by
  have h3 : List.range 3 = [0, 1, 2] := by decide
  simp only [corrector_level, LinComb, Saxpy, plus, Multiply, Divide, h3, List.foldl_cons,
    List.foldl_nil, List.getElem?_zipWith, List.getElem?_map, ho, hv, hc, hr, hg,
    Option.map_some', List.map_cons, List.map_nil]
  simp

/-- Component `d < 3` of a list of three values given component by component. -/
theorem getD_map_range3 (f : ℕ → ℚ) (d : ℕ) (hd : d < 3) :
    ((List.range 3).map f).getD d 0 = f d := by
  have h3 : List.range 3 = [0, 1, 2] := by decide
  rw [h3]
  interval_cases d <;> rfl

/-- The copy of a field has the component values of its source. -/
theorem Copy_data : ∀ (dst src : MultiFab), dst.length = src.length →
    (Copy dst src).map Cell.data = src.map Cell.data := by
  intro dst
  induction dst with
  | nil =>
    intro src h
    cases src with
    | nil => rfl
    | cons x xs => exact absurd h (by simp)
  | cons d ds ih =>
    intro src h
    cases src with
    | nil => exact absurd h (by simp)
    | cons x xs =>
      have h' : ds.length = xs.length := by simpa using h
      have := ih xs h'
      simp only [Copy, List.zipWith_cons_cons, List.map_cons] at this ⊢
      rw [this]

/-- The function `ComputeDt` writes `dt` and nothing else. -/
theorem ComputeDt_eq (sqrt : ℚ → ℚ) (s : incflo) (initialisation : ℤ) :
    ComputeDt sqrt s initialisation = { s with dt := (ComputeDt sqrt s initialisation).dt } := by
  unfold ComputeDt store_dt
  split_ifs <;> rfl

/-! ## Claims on Advance, ApplyPredictor and ApplyCorrector -/

/-- C13: in `Advance`, after `ComputeDt(0)` and the time bookkeeping and before
the predictor runs, for every level `lev` in `[0, finest_level]` (the per-level
arrays being sized for the level and `vel_old[lev]`, `vel[lev]` having the same
cells), `t_old[lev] = cur_time` and `t_new[lev] - t_old[lev] = dt`, where `dt`
is the value `ComputeDt` just stored, and `vel_old[lev]` holds the component
values of `vel[lev]` as it was at the start of the step. -/
theorem Advance_time_levels (sqrt : ℚ → ℚ) (s : incflo) (calls : List Step) (lev : ℕ)
    (hlev : lev ≤ s.finest_level) (hto : lev < s.t_old.length) (htn : lev < s.t_new.length)
    (hvo : lev < s.vel_old.length)
    (hgrid : (s.vel_old.getD lev []).length = (s.vel.getD lev []).length) :
    (Advance_begin sqrt ⟨s, calls⟩).state.dt = (ComputeDt sqrt s 0).dt ∧
      (Advance_begin sqrt ⟨s, calls⟩).state.t_old.getD lev 0 = s.cur_time ∧
      (Advance_begin sqrt ⟨s, calls⟩).state.t_new.getD lev 0
          - (Advance_begin sqrt ⟨s, calls⟩).state.t_old.getD lev 0
        = (Advance_begin sqrt ⟨s, calls⟩).state.dt ∧
      ((Advance_begin sqrt ⟨s, calls⟩).state.vel_old.getD lev []).map Cell.data
        = (s.vel.getD lev []).map Cell.data := by
  have hs := ComputeDt_eq sqrt s 0
  have h1 : (Advance_begin sqrt ⟨s, calls⟩).state.dt = (ComputeDt sqrt s 0).dt := rfl
  have h2 : (Advance_begin sqrt ⟨s, calls⟩).state.t_old
      = for_levels s.finest_level (fun _ _ => s.cur_time) s.t_old := by
    simp only [Advance_begin]
    rw [hs]
  have h3 : (Advance_begin sqrt ⟨s, calls⟩).state.t_new
      = for_levels s.finest_level (fun _ _ => s.cur_time + (ComputeDt sqrt s 0).dt) s.t_new := by
    simp only [Advance_begin]
    rw [hs]
  have h4 : (Advance_begin sqrt ⟨s, calls⟩).state.vel_old
      = for_levels s.finest_level (fun lev dst => Copy dst (s.vel.getD lev [])) s.vel_old := by
    simp only [Advance_begin]
    rw [hs]
  have e2 : (Advance_begin sqrt ⟨s, calls⟩).state.t_old.getD lev 0 = s.cur_time := by
    rw [h2, List.getD_eq_getElem?_getD, for_levels_getElem?, if_pos hlev,
      List.getElem?_eq_getElem hto]
    rfl
  have e3 : (Advance_begin sqrt ⟨s, calls⟩).state.t_new.getD lev 0
      = s.cur_time + (ComputeDt sqrt s 0).dt := by
    rw [h3, List.getD_eq_getElem?_getD, for_levels_getElem?, if_pos hlev,
      List.getElem?_eq_getElem htn]
    rfl
  refine ⟨h1, e2, ?_, ?_⟩
  · rw [e2, e3, h1]
    ring
  · rw [h4, List.getD_eq_getElem?_getD, for_levels_getElem?, if_pos hlev,
      List.getElem?_eq_getElem hvo]
    simp only [Option.map_some', Option.getD_some]
    apply Copy_data
    rw [← hgrid, List.getD_eq_getElem?_getD, List.getElem?_eq_getElem hvo]
    rfl
/-- C13 at a concrete input: from time 0.5 with a previous step 0.1 the new
step is 0.11 (growth limit); `t_old[0] = 0.5`, `t_new[0] = 0.61` and `vel_old[0]`
holds the velocity (1, 0, 0) in place of (3, 0, 0). -/
theorem Advance_time_levels_witness :
    (Advance_begin sqrtQ ⟨stage_state, []⟩).state.dt = 11 / 100 ∧
      (Advance_begin sqrtQ ⟨stage_state, []⟩).state.t_old = [1 / 2] ∧
      (Advance_begin sqrtQ ⟨stage_state, []⟩).state.t_new = [61 / 100] ∧
      (Advance_begin sqrtQ ⟨stage_state, []⟩).state.vel_old = [uniform [1, 0, 0]] ∧
      (Advance_begin sqrtQ ⟨stage_state, []⟩).state.t_new.getD 0 0
          - (Advance_begin sqrtQ ⟨stage_state, []⟩).state.t_old.getD 0 0
        = (Advance_begin sqrtQ ⟨stage_state, []⟩).state.dt :=
  ⟨by decide!, by decide!, by decide!, by decide!,
    (Advance_time_levels sqrtQ stage_state [] 0 (by decide!) (by decide!) (by decide!)
      (by decide!) (by decide!)).2.2.1⟩

/-- Dividing the momentum update by a non-zero density gives the velocity
update. -/
theorem momentum_update_eq (u dt conv g rho gp gp0 : ℚ) (hrho : rho ≠ 0) :
    ((u + dt * conv + dt * g) * rho - dt * gp - dt * gp0) / rho
      = u + dt * (conv + g - (gp + gp0) / rho) := by
  field_simp
  ring

/-- C17: for every valid cell with density `rho != 0` and every component `d`,
the value that `ApplyPredictor` leaves in the velocity at the end of its level
loop, and so hands to the boundary fill and the diffusion solve, is
`((u + dt*conv_old_d + dt*gravity_d) * rho - dt*gp_d - dt*gp0_d) / rho`, which
equals `u + dt*(conv_old_d + gravity_d - (gp_d + gp0_d)/rho)`, where `u` is the
velocity of the cell on entry and `conv_old` the convective term
`ComputeUGradU` returned. -/
theorem ApplyPredictor_explicit_update (c : Collaborators) (s : incflo) (new_time : ℚ)
    (calls : List Step) (lev j d : ℕ) (cu cc cr cg : Cell)
    (hlev : lev ≤ s.finest_level) (hd : d < 3)
    (hu : (s.vel.getD lev [])[j]? = some cu)
    (hc : ((c.ComputeUGradU s s.vel_old s.cur_time).getD lev [])[j]? = some cc)
    (hr : (s.ro.getD lev [])[j]? = some cr) (hg : (s.gp.getD lev [])[j]? = some cg)
    (hrho : cr.data.getD 0 0 ≠ 0) :
    (((predictor_explicit c new_time ⟨s, calls⟩).state.vel.getD lev [])[j]?).map
        (fun cell => cell.data.getD d 0)
      = some (((cu.data.getD d 0 + s.dt * cc.data.getD d 0 + s.dt * s.gravity.getD d 0)
            * cr.data.getD 0 0 - s.dt * cg.data.getD d 0 - s.dt * s.gp0.getD d 0)
          / cr.data.getD 0 0) ∧
      ((cu.data.getD d 0 + s.dt * cc.data.getD d 0 + s.dt * s.gravity.getD d 0)
            * cr.data.getD 0 0 - s.dt * cg.data.getD d 0 - s.dt * s.gp0.getD d 0)
          / cr.data.getD 0 0
        = cu.data.getD d 0 + s.dt * (cc.data.getD d 0 + s.gravity.getD d 0
            - (cg.data.getD d 0 + s.gp0.getD d 0) / cr.data.getD 0 0) := by
  constructor
  · have hlen : lev < s.vel.length := by
      by_contra hcon
      rw [List.getD_eq_getElem?_getD, List.getElem?_eq_none (not_lt.mp hcon)] at hu
      simp at hu
    have hvel : (predictor_explicit c new_time ⟨s, calls⟩).state.vel
        = for_levels s.finest_level
            (predictor_level { s with
              conv_old := c.ComputeUGradU s s.vel_old s.cur_time,
              eta := c.UpdateDerivedQuantities
                { s with conv_old := c.ComputeUGradU s s.vel_old s.cur_time } })
            s.vel := rfl
    rw [hvel, List.getD_eq_getElem?_getD, for_levels_getElem?, if_pos hlev,
      List.getElem?_eq_getElem hlen]
    simp only [Option.map_some', Option.getD_some]
    have hu' : (s.vel[lev])[j]? = some cu := by
      rw [List.getD_eq_getElem?_getD, List.getElem?_eq_getElem hlen] at hu
      exact hu
    rw [predictor_level_getElem? { s with
        conv_old := c.ComputeUGradU s s.vel_old s.cur_time,
        eta := c.UpdateDerivedQuantities
          { s with conv_old := c.ComputeUGradU s s.vel_old s.cur_time } }
      lev j _ cu cc cr cg hu' hc hr hg]
    simp only [Option.map_some', getD_map_range3 _ d hd]
    congr 1
    ring
  · exact momentum_update_eq _ _ _ _ _ _ _ hrho

/-- C17 at a concrete input: density 2, `dt = 0.1`, velocity (1, 0, 0), convective
term (3, 0, 0) (the previous velocity), pressure gradient (1, 0, 0) and gravity
(0, 0, -1) give the x-velocity `(1.3 * 2 - 0.1) / 2 = 1.25`. -/
theorem ApplyPredictor_explicit_update_witness :
    (((predictor_explicit plain (3 / 5) ⟨stage_state, []⟩).state.vel.getD 0 [])[0]?).map
        (fun cell => cell.data.getD 0 0) = some (5 / 4) ∧
      (predictor_explicit plain (3 / 5) ⟨stage_state, []⟩).state.vel
        = [uniform [5 / 4, 0, -1 / 10]] :=
  ⟨((ApplyPredictor_explicit_update plain stage_state (3 / 5) [] 0 0 0
      { data := [1, 0, 0] } { data := [3, 0, 0] } { data := [2] } { data := [1, 0, 0] }
      (by decide!) (by decide!) (by decide!) (by decide!) (by decide!) (by decide!)
      (by decide!)).1).trans (by decide!),
    by decide!⟩

/-- The corrector form of `momentum_update_eq`, with the two half steps of the
convective term. -/
theorem momentum_update_half_eq (u dt conv conv_old g rho gp gp0 : ℚ) (hrho : rho ≠ 0) :
    ((1 * u + dt / 2 * conv + dt / 2 * conv_old + dt * g) * rho + -dt * gp + -dt * gp0) / rho
      = u + dt * (1 / 2 * (conv + conv_old) + g - (gp + gp0) / rho) := by
  field_simp
  ring

/-- C18: for every valid cell with density `rho != 0` and every component `d`,
the value that `ApplyCorrector` leaves in the velocity at the end of its level
loop, and so hands to the boundary fill and the diffusion solve, is
`vel_old + dt*(0.5*(conv_d + conv_old_d) + gravity_d - (gp_d + gp0_d)/rho)`,
where `conv` is the convective term `ComputeUGradU` returned for the predicted
velocity; the level loop does not read the predicted velocity of the level (the
value is the same for every other content of the velocity array); and with
`conv = conv_old` the value is the one the predictor loop computes from
`vel = vel_old`. -/
theorem ApplyCorrector_explicit_update (c : Collaborators) (s : incflo) (new_time : ℚ)
    (calls : List Step) (lev j d : ℕ) (co cv cc cr cg : Cell)
    (hlev : lev ≤ s.finest_level) (hd : d < 3) (hlen : lev < s.vel.length)
    (ho : (s.vel_old.getD lev [])[j]? = some co)
    (hv : ((c.ComputeUGradU s s.vel new_time).getD lev [])[j]? = some cv)
    (hc : (s.conv_old.getD lev [])[j]? = some cc)
    (hr : (s.ro.getD lev [])[j]? = some cr) (hg : (s.gp.getD lev [])[j]? = some cg)
    (hrho : cr.data.getD 0 0 ≠ 0) :
    (((corrector_explicit c new_time ⟨s, calls⟩).state.vel.getD lev [])[j]?).map
        (fun cell => cell.data.getD d 0)
      = some (co.data.getD d 0 + s.dt * (1 / 2 * (cv.data.getD d 0 + cc.data.getD d 0)
          + s.gravity.getD d 0 - (cg.data.getD d 0 + s.gp0.getD d 0) / cr.data.getD 0 0)) ∧
      (∀ (t : incflo) (v v' : MultiFab), corrector_level t lev v = corrector_level t lev v') ∧
      (cv.data.getD d 0 = cc.data.getD d 0 →
        (((corrector_explicit c new_time ⟨s, calls⟩).state.vel.getD lev [])[j]?).map
            (fun cell => cell.data.getD d 0)
          = ((predictor_level s lev (s.vel_old.getD lev []))[j]?).map
              (fun cell => cell.data.getD d 0)) := by
  have hvel : (corrector_explicit c new_time ⟨s, calls⟩).state.vel
      = for_levels s.finest_level
          (corrector_level { s with
            conv := c.ComputeUGradU s s.vel new_time,
            eta := c.UpdateDerivedQuantities
              { s with conv := c.ComputeUGradU s s.vel new_time } })
          s.vel := rfl
  have hval : (((corrector_explicit c new_time ⟨s, calls⟩).state.vel.getD lev [])[j]?).map
        (fun cell => cell.data.getD d 0)
      = some (((1 * co.data.getD d 0 + s.dt / 2 * cv.data.getD d 0
            + s.dt / 2 * cc.data.getD d 0 + s.dt * s.gravity.getD d 0) * cr.data.getD 0 0
          + -s.dt * cg.data.getD d 0 + -s.dt * s.gp0.getD d 0) / cr.data.getD 0 0) := by
    rw [hvel, List.getD_eq_getElem?_getD, for_levels_getElem?, if_pos hlev,
      List.getElem?_eq_getElem hlen]
    simp only [Option.map_some', Option.getD_some]
    rw [corrector_level_getElem? { s with
        conv := c.ComputeUGradU s s.vel new_time,
        eta := c.UpdateDerivedQuantities
          { s with conv := c.ComputeUGradU s s.vel new_time } }
      lev j _ co cv cc cr cg ho hv hc hr hg]
    simp only [Option.map_some', getD_map_range3 _ d hd]
  refine ⟨?_, fun _ _ _ => rfl, ?_⟩
  · rw [hval, momentum_update_half_eq _ _ _ _ _ _ _ _ hrho]
  · intro hconv
    rw [hval, predictor_level_getElem? s lev j _ co cc cr cg ho hc hr hg]
    simp only [Option.map_some', getD_map_range3 _ d hd]
    rw [hconv]
    congr 1
    ring

/-- C18 at a concrete input: density 2, `dt = 0.1`, previous velocity (3, 0, 0),
convective terms (1, 0, 0) (the predicted velocity) and (7, 0, 0), pressure
gradient (1, 0, 0) give the x-velocity `3 + 0.1 * (0.5 * 8 - 0.5) = 3.35`. -/
theorem ApplyCorrector_explicit_update_witness :
    (((corrector_explicit plain (3 / 5) ⟨stage_state, []⟩).state.vel.getD 0 [])[0]?).map
        (fun cell => cell.data.getD 0 0) = some (67 / 20) ∧
      (corrector_explicit plain (3 / 5) ⟨stage_state, []⟩).state.vel
        = [uniform [67 / 20, 0, -1 / 10]] :=
  ⟨((ApplyCorrector_explicit_update plain stage_state (3 / 5) [] 0 0 0
      { data := [3, 0, 0] } { data := [1, 0, 0] } { data := [7, 0, 0] } { data := [2] }
      { data := [1, 0, 0] }
      (by decide!) (by decide!) (by decide!) (by decide!) (by decide!) (by decide!)
      (by decide!) (by decide!) (by decide!)).1).trans (by decide!),
    by decide!⟩

/-- The collaborators of the algorithm among the recorded calls. -/
theorem filter_append_calls (l₁ l₂ : List Step) :
    (l₁ ++ l₂).filter (fun st => !st.diagnostic)
      = l₁.filter (fun st => !st.diagnostic) ++ l₂.filter (fun st => !st.diagnostic) :=
  List.filter_append l₁ l₂

/-- The function `ComputeDt` leaves `cur_time` as it is. -/
theorem ComputeDt_cur_time (sqrt : ℚ → ℚ) (s : incflo) (initialisation : ℤ) :
    (ComputeDt sqrt s initialisation).cur_time = s.cur_time := by
  rw [ComputeDt_eq]

/-- The calls of the boundary fill, the diffusion solve and the projection that
end a stage. -/
theorem stage_implicit_calls (c : Collaborators) (new_time : ℚ) (r : Run) :
    (stage_implicit c new_time r).calls
        = r.calls ++ [Step.FillVelocityBC new_time 0, Step.solve r.state.dt,
            Step.ApplyProjection new_time r.state.dt, Step.FillVelocityBC new_time 0] ∧
      (stage_implicit c new_time r).state.dt = r.state.dt ∧
      (stage_implicit c new_time r).state.cur_time = r.state.cur_time := by
  refine ⟨?_, rfl, rfl⟩
  simp only [stage_implicit, List.append_assoc, List.cons_append, List.nil_append]

/-- The collaborators called by `ApplyPredictor` up to the end of its level loop. -/
theorem predictor_explicit_calls (c : Collaborators) (new_time : ℚ) (r : Run) :
    (predictor_explicit c new_time r).calls.filter (fun st => !st.diagnostic)
        = r.calls.filter (fun st => !st.diagnostic)
          ++ [Step.ComputeUGradU FieldId.conv_old FieldId.vel_old r.state.cur_time,
            Step.UpdateDerivedQuantities, Step.explicit_update] ∧
      (predictor_explicit c new_time r).state.dt = r.state.dt ∧
      (predictor_explicit c new_time r).state.cur_time = r.state.cur_time := by
  refine ⟨?_, rfl, rfl⟩
  simp only [predictor_explicit]
  split_ifs <;> simp [Step.diagnostic, List.filter_append]

/-- The collaborators called by `ApplyCorrector` up to the end of its level loop. -/
theorem corrector_explicit_calls (c : Collaborators) (new_time : ℚ) (r : Run) :
    (corrector_explicit c new_time r).calls.filter (fun st => !st.diagnostic)
        = r.calls.filter (fun st => !st.diagnostic)
          ++ [Step.ComputeUGradU FieldId.conv FieldId.vel new_time,
            Step.UpdateDerivedQuantities, Step.explicit_update] ∧
      (corrector_explicit c new_time r).state.dt = r.state.dt ∧
      (corrector_explicit c new_time r).state.cur_time = r.state.cur_time := by
  refine ⟨?_, rfl, rfl⟩
  simp only [corrector_explicit]
  split_ifs <;> simp [Step.diagnostic, List.filter_append]

/-- The collaborators called by `ApplyPredictor`, after the calls recorded
before. -/
theorem ApplyPredictor_calls (c : Collaborators) (r : Run) :
    (ApplyPredictor c r).calls.filter (fun st => !st.diagnostic)
        = r.calls.filter (fun st => !st.diagnostic)
          ++ [Step.ComputeUGradU FieldId.conv_old FieldId.vel_old r.state.cur_time,
            Step.UpdateDerivedQuantities, Step.explicit_update,
            Step.FillVelocityBC (r.state.cur_time + r.state.dt) 0, Step.solve r.state.dt,
            Step.ApplyProjection (r.state.cur_time + r.state.dt) r.state.dt,
            Step.FillVelocityBC (r.state.cur_time + r.state.dt) 0] ∧
      (ApplyPredictor c r).state.dt = r.state.dt ∧
      (ApplyPredictor c r).state.cur_time = r.state.cur_time := by
  obtain ⟨h1, h2, h3⟩ := predictor_explicit_calls c (r.state.cur_time + r.state.dt) r
  obtain ⟨k1, k2, k3⟩ := stage_implicit_calls c (r.state.cur_time + r.state.dt)
    (predictor_explicit c (r.state.cur_time + r.state.dt) r)
  refine ⟨?_, ?_, ?_⟩
  · show (stage_implicit c _ (predictor_explicit c _ r)).calls.filter _ = _
    rw [k1, filter_append_calls, h1, h2]
    simp [Step.diagnostic]
  · show (stage_implicit c _ (predictor_explicit c _ r)).state.dt = _
    rw [k2, h2]
  · show (stage_implicit c _ (predictor_explicit c _ r)).state.cur_time = _
    rw [k3, h3]

/-- The collaborators called by `ApplyCorrector`, after the calls recorded
before. -/
theorem ApplyCorrector_calls (c : Collaborators) (r : Run) :
    (ApplyCorrector c r).calls.filter (fun st => !st.diagnostic)
        = r.calls.filter (fun st => !st.diagnostic)
          ++ [Step.ComputeUGradU FieldId.conv FieldId.vel (r.state.cur_time + r.state.dt),
            Step.UpdateDerivedQuantities, Step.explicit_update,
            Step.FillVelocityBC (r.state.cur_time + r.state.dt) 0, Step.solve r.state.dt,
            Step.ApplyProjection (r.state.cur_time + r.state.dt) r.state.dt,
            Step.FillVelocityBC (r.state.cur_time + r.state.dt) 0] ∧
      (ApplyCorrector c r).state.dt = r.state.dt ∧
      (ApplyCorrector c r).state.cur_time = r.state.cur_time := by
  obtain ⟨h1, h2, h3⟩ := corrector_explicit_calls c (r.state.cur_time + r.state.dt) r
  obtain ⟨k1, k2, k3⟩ := stage_implicit_calls c (r.state.cur_time + r.state.dt)
    (corrector_explicit c (r.state.cur_time + r.state.dt) r)
  refine ⟨?_, ?_, ?_⟩
  · show (stage_implicit c _ (corrector_explicit c _ r)).calls.filter _ = _
    rw [k1, filter_append_calls, h1, h2]
    simp [Step.diagnostic]
  · show (stage_implicit c _ (corrector_explicit c _ r)).state.dt = _
    rw [k2, h2]
  · show (stage_implicit c _ (corrector_explicit c _ r)).state.cur_time = _
    rw [k3, h3]

/-- The calls of `Advance` before the predictor, and the time and step it hands
to the predictor. -/
theorem Advance_begin_calls (sqrt : ℚ → ℚ) (s : incflo) :
    (Advance_begin sqrt ⟨s, []⟩).calls
        = [Step.FillScalarBC, Step.FillVelocityBC s.cur_time 0, Step.ComputeDt 0] ∧
      (Advance_begin sqrt ⟨s, []⟩).state.dt = (ComputeDt sqrt s 0).dt ∧
      (Advance_begin sqrt ⟨s, []⟩).state.cur_time = s.cur_time :=
  ⟨rfl, rfl, ComputeDt_cur_time sqrt s 0⟩

/-- The members after `ApplyPredictor` are those after the steps of the
predictor sequence. -/
theorem ApplyPredictor_state (c : Collaborators) (sqrt : ℚ → ℚ) (r : Run) :
    (ApplyPredictor c r).state
      = run_steps c sqrt predictor_level
          (predictor_sequence r.state.cur_time r.state.dt) r.state := rfl

/-- The members after `ApplyCorrector` are those after the steps of the
corrector sequence. -/
theorem ApplyCorrector_state (c : Collaborators) (sqrt : ℚ → ℚ) (r : Run) :
    (ApplyCorrector c r).state
      = run_steps c sqrt corrector_level
          (corrector_sequence r.state.cur_time r.state.dt) r.state := rfl

/-- The diagnostic at the end of `Advance` leaves the members as the corrector
left them. -/
theorem Advance_state (c : Collaborators) (sqrt : ℚ → ℚ) (r : Run) :
    (Advance c sqrt r).state
      = (ApplyCorrector c (ApplyPredictor c (Advance_begin sqrt r))).state := by
  simp only [Advance]
  split_ifs <;> rfl

/-- Apart from the time levels and the backup of the velocity, the members
after the first part of `Advance` are those that `ComputeDt(0)` returns. -/
theorem Advance_begin_state (c : Collaborators) (sqrt : ℚ → ℚ) (s : incflo) :
    { (Advance_begin sqrt ⟨s, []⟩).state with
        t_old := s.t_old, t_new := s.t_new, vel_old := s.vel_old }
      = run_steps c sqrt predictor_level
          [Step.FillScalarBC, Step.FillVelocityBC s.cur_time 0, Step.ComputeDt 0] s := by
  have h := ComputeDt_eq sqrt s 0
  show ({ ({ ({ ComputeDt sqrt s 0 with
      t_old := for_levels (ComputeDt sqrt s 0).finest_level
        (fun _ _ => (ComputeDt sqrt s 0).cur_time) (ComputeDt sqrt s 0).t_old,
      t_new := for_levels (ComputeDt sqrt s 0).finest_level
        (fun _ _ => (ComputeDt sqrt s 0).cur_time + (ComputeDt sqrt s 0).dt)
        (ComputeDt sqrt s 0).t_new } : incflo) with
      vel_old := _ } : incflo) with
      t_old := s.t_old, t_new := s.t_new, vel_old := s.vel_old } : incflo)
    = ComputeDt sqrt s 0
  generalize ComputeDt sqrt s 0 = X at h ⊢
  rw [h]

/-- C19: `ApplyPredictor` and `ApplyCorrector` call their collaborators once
each and in this order: `ComputeUGradU` (predictor: of `vel_old` at `cur_time`
into `conv_old`; corrector: of `vel` at `cur_time + dt` into `conv`),
`UpdateDerivedQuantities`, the explicit update, `FillVelocityBC(cur_time + dt)`,
the diffusion solve with step `dt`, `ApplyProjection(cur_time + dt, dt)`,
`FillVelocityBC(cur_time + dt)`; and `Advance` runs `ComputeDt(0)`, then the
predictor, then the corrector, both with the `dt` that `ComputeDt` stored.
For every choice of the collaborators this holds of the record of the calls
and of the members: the members after a stage are those obtained by carrying
out the steps of its sequence one after the other on the members before it,
each collaborator applied to the arguments named.  The diagnostic
`PrintMaxValues` of a verbose run is left out of the comparison of the
records. -/
theorem stage_sequencing (c : Collaborators) (sqrt : ℚ → ℚ) (s : incflo) :
    ((ApplyPredictor c ⟨s, []⟩).calls.filter (fun st => !st.diagnostic)
          = predictor_sequence s.cur_time s.dt ∧
        (ApplyPredictor c ⟨s, []⟩).state
          = run_steps c sqrt predictor_level (predictor_sequence s.cur_time s.dt) s) ∧
      ((ApplyCorrector c ⟨s, []⟩).calls.filter (fun st => !st.diagnostic)
          = corrector_sequence s.cur_time s.dt ∧
        (ApplyCorrector c ⟨s, []⟩).state
          = run_steps c sqrt corrector_level (corrector_sequence s.cur_time s.dt) s) ∧
      ((Advance c sqrt ⟨s, []⟩).calls.filter (fun st => !st.diagnostic)
          = [Step.FillScalarBC, Step.FillVelocityBC s.cur_time 0, Step.ComputeDt 0]
            ++ predictor_sequence s.cur_time (ComputeDt sqrt s 0).dt
            ++ corrector_sequence s.cur_time (ComputeDt sqrt s 0).dt ∧
        { (Advance_begin sqrt ⟨s, []⟩).state with
            t_old := s.t_old, t_new := s.t_new, vel_old := s.vel_old }
          = run_steps c sqrt predictor_level
              [Step.FillScalarBC, Step.FillVelocityBC s.cur_time 0, Step.ComputeDt 0] s ∧
        (Advance c sqrt ⟨s, []⟩).state
          = run_steps c sqrt corrector_level
              (corrector_sequence s.cur_time (ComputeDt sqrt s 0).dt)
              (run_steps c sqrt predictor_level
                (predictor_sequence s.cur_time (ComputeDt sqrt s 0).dt)
                (Advance_begin sqrt ⟨s, []⟩).state)) := by
  refine ⟨⟨?_, rfl⟩, ⟨?_, rfl⟩, ?_, Advance_begin_state c sqrt s, ?_⟩
  · rw [(ApplyPredictor_calls c ⟨s, []⟩).1]
    rfl
  · rw [(ApplyCorrector_calls c ⟨s, []⟩).1]
    rfl
  · obtain ⟨b1, b2, b3⟩ := Advance_begin_calls sqrt s
    obtain ⟨p1, p2, p3⟩ := ApplyPredictor_calls c (Advance_begin sqrt ⟨s, []⟩)
    obtain ⟨q1, _, _⟩ := ApplyCorrector_calls c (ApplyPredictor c (Advance_begin sqrt ⟨s, []⟩))
    have hcalls : (Advance c sqrt ⟨s, []⟩).calls.filter (fun st => !st.diagnostic)
        = (ApplyCorrector c (ApplyPredictor c (Advance_begin sqrt ⟨s, []⟩))).calls.filter
            (fun st => !st.diagnostic) := by
      simp only [Advance]
      split_ifs <;> simp [Step.diagnostic, List.filter_append]
    rw [hcalls, q1, p1, p2, p3, b1, b2, b3]
    simp [Step.diagnostic, predictor_sequence, corrector_sequence]
  · obtain ⟨_, b2, b3⟩ := Advance_begin_calls sqrt s
    obtain ⟨_, p2, p3⟩ := ApplyPredictor_calls c (Advance_begin sqrt ⟨s, []⟩)
    rw [Advance_state, ApplyCorrector_state c sqrt, p2, p3, b2, b3,
      ApplyPredictor_state c sqrt, b2, b3]

/-- C19 at a concrete input: a run with `incflo_verbose = 3` from time 0.5 with
`dt = 0.1` records the diagnostic `PrintMaxValues` first and then the seven
steps of the predictor, and the steps of the predictor sequence carried out on
the members give the velocity (1.25, 0, -0.1) that `ApplyPredictor` leaves. -/
theorem stage_sequencing_witness :
    (ApplyPredictor plain ⟨{ stage_state with incflo_verbose := 3 }, []⟩).calls
      = [Step.PrintMaxValues (3 / 5),
          Step.ComputeUGradU FieldId.conv_old FieldId.vel_old (1 / 2),
          Step.UpdateDerivedQuantities, Step.explicit_update,
          Step.FillVelocityBC (3 / 5) 0, Step.solve (1 / 10),
          Step.ApplyProjection (3 / 5) (1 / 10), Step.FillVelocityBC (3 / 5) 0] ∧
      (ApplyPredictor plain ⟨stage_state, []⟩).calls.filter (fun st => !st.diagnostic)
        = (ApplyPredictor plain ⟨stage_state, []⟩).calls ∧
      (run_steps plain sqrtQ predictor_level (predictor_sequence (1 / 2) (1 / 10))
          stage_state).vel = [uniform [5 / 4, 0, -1 / 10]] ∧
      (ApplyPredictor plain ⟨stage_state, []⟩).state.vel = [uniform [5 / 4, 0, -1 / 10]] :=
  ⟨by decide!, by
    rw [(stage_sequencing plain sqrtQ stage_state).1.1]
    decide!, by decide!, by
    rw [(stage_sequencing plain sqrtQ stage_state).1.2]
    decide!⟩

/-! ## Lemmas on ReadParameters -/

/-- The branch on `fluid_model` returns exactly for the five models with their
parameters in range. -/
theorem read_fluid_model_ok_iff (pp : Inputs) (s : incflo) :
    (∃ s', read_fluid_model pp s = Except.ok s') ↔
      (s.fluid_model = "newtonian" ∨
        (s.fluid_model = "powerlaw" ∧ pp.n.getD s.n > 0 ∧ pp.n.getD s.n ≠ 1) ∨
        (s.fluid_model = "bingham" ∧ pp.tau_0.getD s.tau_0 > 0
          ∧ pp.papa_reg.getD s.papa_reg > 0) ∨
        (s.fluid_model = "hb" ∧ pp.n.getD s.n > 0 ∧ pp.n.getD s.n ≠ 1
          ∧ pp.tau_0.getD s.tau_0 > 0 ∧ pp.papa_reg.getD s.papa_reg > 0) ∨
        (s.fluid_model = "smd" ∧ pp.n.getD s.n > 0 ∧ pp.tau_0.getD s.tau_0 > 0
          ∧ pp.eta_0.getD s.eta_0 > 0)) := by
  generalize hfm : s.fluid_model = fm
  simp only [read_fluid_model, AMREX_ALWAYS_ASSERT, query, hfm]
  by_cases h1 : fm = "newtonian"
  · subst h1
    simp
  by_cases h2 : fm = "powerlaw"
  · subst h2
    simp only [if_neg h1, if_true]
    split_ifs <;> simp [*]
  by_cases h3 : fm = "bingham"
  · subst h3
    simp only [if_neg h1, if_neg h2, if_true]
    split_ifs <;> simp [*]
  by_cases h4 : fm = "hb"
  · subst h4
    simp only [if_neg h1, if_neg h2, if_neg h3, if_true]
    split_ifs <;> simp [*]
  by_cases h5 : fm = "smd"
  · subst h5
    simp only [if_neg h1, if_neg h2, if_neg h3, if_neg h4, if_true]
    split_ifs <;> simp [*]
  simp [h1, h2, h3, h4, h5]

/-- The branch on `fluid_model` leaves `cfl` as it is. -/
theorem read_fluid_model_cfl (pp : Inputs) (s s' : incflo)
    (h : read_fluid_model pp s = Except.ok s') : s'.cfl = s.cfl := by
  simp only [read_fluid_model, AMREX_ALWAYS_ASSERT, query] at h
  split_ifs at h <;> cases h <;> rfl

/-- The function `ReadParameters`, from the defaults of incflo.H, returns exactly
for the accepted parameter sets. -/
theorem ReadParameters_ok_iff (pp : Inputs) :
    (∃ s', ReadParameters pp {} = Except.ok s') ↔
      accepted_parameters (pp.ro_0.getD 1) (pp.mu.getD 1) (pp.n.getD 0) (pp.tau_0.getD 0)
        (pp.papa_reg.getD 0) (pp.eta_0.getD 0) (pp.fluid_model.getD "newtonian") := by
  unfold ReadParameters accepted_parameters AMREX_ALWAYS_ASSERT
  simp only [query]
  by_cases h1 : pp.ro_0.getD 1 ≥ 0
  · by_cases h2 : pp.mu.getD 1 > 0
    · rw [if_pos h1, if_pos h2, read_fluid_model_ok_iff]
      simp only [h1, h2, true_and]
    · rw [if_pos h1, if_neg h2]
      simp [h2]
  · rw [if_neg h1]
    simp [h1]

/-- When `ReadParameters` returns, `cfl` holds the entry of the inputs file, or
the default 0.5 when there is none. -/
theorem ReadParameters_cfl (pp : Inputs) (s' : incflo)
    (h : ReadParameters pp {} = Except.ok s') : s'.cfl = pp.cfl.getD (1 / 2) := by
  unfold ReadParameters AMREX_ALWAYS_ASSERT at h
  simp only [query] at h
  split_ifs at h with h1 h2
  exact read_fluid_model_cfl pp _ s' h

/-! ## Claims on ReadParameters -/

/-- C14: from the defaults of incflo.H, `ReadParameters` accepts a parameter set
if and only if `ro_0 >= 0`, `mu > 0` and one of: `fluid_model = newtonian`;
`powerlaw` with `n > 0` and `n != 1`; `bingham` with `tau_0 > 0` and
`papa_reg > 0`; `hb` with `n > 0`, `n != 1`, `tau_0 > 0` and `papa_reg > 0`; `smd`
with `n > 0`, `tau_0 > 0` and `eta_0 > 0`, where a parameter that is not given
has its default (`ro_0 = 1`, `mu = 1`, `n = tau_0 = papa_reg = eta_0 = 0`,
`fluid_model = newtonian`); every other `fluid_model` aborts. -/
theorem ReadParameters_accepts_iff (pp : Inputs) :
    (∃ s', ReadParameters pp {} = Except.ok s') ↔
      ((pp.ro_0.getD 1 ≥ 0 ∧ pp.mu.getD 1 > 0) ∧
        (pp.fluid_model.getD "newtonian" = "newtonian" ∨
          (pp.fluid_model.getD "newtonian" = "powerlaw" ∧ pp.n.getD 0 > 0 ∧ pp.n.getD 0 ≠ 1) ∨
          (pp.fluid_model.getD "newtonian" = "bingham" ∧ pp.tau_0.getD 0 > 0
            ∧ pp.papa_reg.getD 0 > 0) ∨
          (pp.fluid_model.getD "newtonian" = "hb" ∧ pp.n.getD 0 > 0 ∧ pp.n.getD 0 ≠ 1
            ∧ pp.tau_0.getD 0 > 0 ∧ pp.papa_reg.getD 0 > 0) ∨
          (pp.fluid_model.getD "newtonian" = "smd" ∧ pp.n.getD 0 > 0 ∧ pp.tau_0.getD 0 > 0
            ∧ pp.eta_0.getD 0 > 0))) := by
  rw [ReadParameters_ok_iff]
  unfold accepted_parameters
  tauto

/-- C14 at concrete inputs: a power-law fluid with `n = 0.5` is accepted; with
`n = 1`, and with `n` not given (default 0), the run aborts; an unknown model
aborts. -/
theorem ReadParameters_accepts_iff_witness :
    (∃ s', ReadParameters { fluid_model := some "powerlaw", n := some (1 / 2) } {}
        = Except.ok s') ∧
      ¬ (∃ s', ReadParameters { fluid_model := some "powerlaw", n := some 1 } {}
        = Except.ok s') ∧
      ¬ (∃ s', ReadParameters { fluid_model := some "powerlaw" } {} = Except.ok s') ∧
      ¬ (∃ s', ReadParameters { fluid_model := some "casson" } {} = Except.ok s') :=
  ⟨(ReadParameters_accepts_iff _).mpr (by decide!),
    fun h => absurd ((ReadParameters_accepts_iff _).mp h) (by decide!),
    fun h => absurd ((ReadParameters_accepts_iff _).mp h) (by decide!),
    fun h => absurd ((ReadParameters_accepts_iff _).mp h) (by decide!)⟩

/-- C15 as stated fails: an inputs file with `incflo.cfl = -1` and nothing else is
accepted, and `ReadParameters` stores the negative `cfl`. -/
theorem ReadParameters_negative_cfl :
    ∃ s', ReadParameters { cfl := some (-1) } {} = Except.ok s' ∧ s'.cfl = -1 := by
  obtain ⟨s', h⟩ := (ReadParameters_ok_iff { cfl := some (-1) }).mpr (by
    unfold accepted_parameters
    decide!)
  exact ⟨s', h, ReadParameters_cfl _ s' h⟩

/-- C15 amended: `ReadParameters` does not check `cfl`: whether it aborts does not
depend on the `cfl` entry, and when it returns it has stored the entry as it is
(0.5 when there is none), negative values included. -/
theorem ReadParameters_stores_cfl (pp : Inputs) :
    (∀ c, (∃ s', ReadParameters { pp with cfl := c } {} = Except.ok s') ↔
        (∃ s', ReadParameters pp {} = Except.ok s')) ∧
      (∀ s', ReadParameters pp {} = Except.ok s' → s'.cfl = pp.cfl.getD (1 / 2)) := by
  refine ⟨fun c => ?_, fun s' h => ReadParameters_cfl pp s' h⟩
  rw [ReadParameters_ok_iff, ReadParameters_ok_iff]

/-- C15 amended at a concrete input: with `cfl = -1` given the run is accepted as
it is without the entry, and the stored value is -1. -/
theorem ReadParameters_stores_cfl_witness :
    ((∃ s', ReadParameters { cfl := some (-1) } {} = Except.ok s') ↔
        (∃ s', ReadParameters {} {} = Except.ok s')) ∧
      (∀ s', ReadParameters { cfl := some (-1) } {} = Except.ok s' → s'.cfl = -1) :=
  ⟨(ReadParameters_stores_cfl {}).1 (some (-1)),
    fun s' h => ((ReadParameters_stores_cfl { cfl := some (-1) }).2 s' h).trans (by decide!)⟩

/-! ## Lemmas on the projection of concrete runs -/

/-- The mean flow has no divergence along the row. -/
theorem row_divergence_mean_flow (vel : List MultiFab) : row_divergence (mean_flow vel) = 0 := by
  unfold row_divergence
  have hrow : ∃ (n : ℕ) (m : ℚ), row (mean_flow vel) = List.replicate n m := by
    cases vel with
    | nil => exact ⟨0, 0, rfl⟩
    | cons lev rest =>
      refine ⟨lev.length, (lev.map (fun c => c.data.getD 0 0)).sum / lev.length, ?_⟩
      simp only [row, mean_flow, List.map_cons, List.getD_cons_zero, List.map_map]
      exact List.map_const' lev _
  obtain ⟨n, m, h⟩ := hrow
  rw [h, List.rotate_replicate]
  simp

/-- The projection of `projecting` meets the contract with tolerance 0. -/
theorem projecting_contract : projection_contract row_divergence 0 projecting := by
  intro s time scale
  show |row_divergence (mean_flow s.vel)| ≤ 0
  rw [row_divergence_mean_flow]
  simp

/-! ## Claims on the projection -/

/-- C16: when `ApplyProjection` keeps its contract (the velocity it returns has
a discrete divergence within the solver tolerance), the velocity after
`ApplyCorrector` has a discrete divergence within the solver tolerance, for every
initial field; the last calls of `ApplyCorrector` are
`ApplyProjection(cur_time + dt, dt)` and `FillVelocityBC(cur_time + dt)`. -/
theorem ApplyCorrector_divergence (c : Collaborators) (divergence : List MultiFab → ℚ)
    (tol : ℚ) (s : incflo) (calls : List Step)
    (hproj : projection_contract divergence tol c) :
    |divergence (ApplyCorrector c ⟨s, calls⟩).state.vel| ≤ tol ∧
      ∃ before, (ApplyCorrector c ⟨s, calls⟩).calls
        = before ++ [Step.ApplyProjection (s.cur_time + s.dt) s.dt,
            Step.FillVelocityBC (s.cur_time + s.dt) 0] := by
  constructor
  · exact hproj _ _ _
  · obtain ⟨k1, _, _⟩ := stage_implicit_calls c (s.cur_time + s.dt)
      (corrector_explicit c (s.cur_time + s.dt) ⟨s, calls⟩)
    refine ⟨(corrector_explicit c (s.cur_time + s.dt) ⟨s, calls⟩).calls
      ++ [Step.FillVelocityBC (s.cur_time + s.dt) 0, Step.solve s.dt], ?_⟩
    show (stage_implicit c _ (corrector_explicit c _ ⟨s, calls⟩)).calls = _
    rw [k1]
    simp only [List.append_assoc, List.cons_append, List.nil_append]
    rfl

/-- C16 at a concrete input: a uniform flow on a periodic row, with the mean
projection, leaves `ApplyCorrector` as the uniform flow (3.35, 0, 0), whose
discrete divergence is 0. -/
theorem ApplyCorrector_divergence_witness :
    (ApplyCorrector projecting ⟨stage_state, []⟩).state.vel = [uniform [67 / 20, 0, 0]] ∧
      |row_divergence (ApplyCorrector projecting ⟨stage_state, []⟩).state.vel| ≤ 0 :=
  ⟨by decide!,
    (ApplyCorrector_divergence projecting row_divergence 0 stage_state []
      projecting_contract).1⟩

/-! ## Lemmas on the plot-time alignment -/

/-- The function `trunc` is monotone. -/
theorem trunc_mono {a b : ℚ} (h : a ≤ b) : trunc a ≤ trunc b := by
  rcases le_or_lt 0 a with ha | ha
  · have hb : 0 ≤ b := le_trans ha h
    rw [trunc_of_nonneg ha, trunc_of_nonneg hb]
    exact_mod_cast Int.floor_le_floor h
  · rcases le_or_lt 0 b with hb | hb
    · have h1 := trunc_nonpos_of_neg ha
      have h2 : (0 : ℚ) ≤ trunc b := by
        rw [trunc_of_nonneg hb]
        exact_mod_cast Int.floor_nonneg.mpr hb
      linarith
    · simp only [trunc, if_neg (not_le.mpr ha), if_neg (not_le.mpr hb)]
      exact_mod_cast Int.ceil_le_ceil h

/-- The value of `trunc` is an integer. -/
theorem trunc_int (x : ℚ) : ∃ k : ℤ, trunc x = (k : ℚ) := by
  unfold trunc
  split_ifs
  · exact ⟨⌊x⌋, rfl⟩
  · exact ⟨⌈x⌉, rfl⟩

/-- A candidate that crosses a plot time is positive. -/
theorem pos_of_crossing (s : incflo) (d : ℚ) (hpp : 0 < s.plot_per)
    (hcross : trunc ((s.cur_time + d + eps) / s.plot_per)
      > trunc ((s.cur_time + eps) / s.plot_per)) : 0 < d := by
  by_contra hd
  have hle : (s.cur_time + d + eps) / s.plot_per ≤ (s.cur_time + eps) / s.plot_per :=
    div_le_div_of_nonneg_right (by linarith [not_lt.mp hd]) hpp.le
  exact absurd (trunc_mono hle) (not_le.mpr hcross)

/-! ## Claims on the plot-time alignment -/

/-- C21: for every state with `plot_per > 0` and `cur_time >= 0` and every
candidate `d` that crosses a multiple of `plot_per`
(`trunc((cur_time + d + eps)/plot_per) > trunc((cur_time + eps)/plot_per)`), the
aligned candidate ends on `k * plot_per` for an integer `k`, it is not larger
than `d`, and when `d` is the candidate of `ComputeDt` and neither the stop-time
clip nor the degenerate guard nor `fixed_dt` changes the aligned candidate,
`cur_time + dt` is that multiple of `plot_per`. -/
theorem plot_align_lands (s : incflo) (d : ℚ) (hpp : 0 < s.plot_per) (hcur : 0 ≤ s.cur_time)
    (hcross : trunc ((s.cur_time + d + eps) / s.plot_per)
      > trunc ((s.cur_time + eps) / s.plot_per)) :
    ∃ k : ℤ, s.cur_time + plot_align s d = k * s.plot_per ∧ plot_align s d ≤ d ∧
      ∀ (sqrt : ℚ → ℚ) (initialisation : ℤ),
        dt_limited s initialisation (comb_cfl sqrt s) (dt_new sqrt s) = d →
        stop_clip s (plot_align s d) = plot_align s d → eps ≤ plot_align s d →
        s.fixed_dt ≤ 0 →
        s.cur_time + (ComputeDt sqrt s initialisation).dt = k * s.plot_per := by
  obtain ⟨k, hk⟩ := trunc_int ((s.cur_time + d) / s.plot_per)
  have hval : plot_align s d = trunc ((s.cur_time + d) / s.plot_per) * s.plot_per - s.cur_time := by
    unfold plot_align
    rw [if_pos ⟨hpp, hcross⟩]
  have hland : s.cur_time + plot_align s d = k * s.plot_per := by
    rw [hval, hk]
    ring
  refine ⟨k, hland, ?_, ?_⟩
  · have hd := pos_of_crossing s d hpp hcross
    have := plot_align_le s d hcur
    rwa [max_eq_left hd.le] at this
  · intro sqrt initialisation hlim hstop hguard hfixed
    rw [ComputeDt_dt, if_neg (not_lt.mpr hfixed)]
    unfold dt_candidate dt_clipped
    rw [hlim, hstop, degenerate_guard_of_le s _ hguard, hland]

/-- C21 at a concrete input: the unit flow at time 0.75 with plot period 1 has
the candidate 0.5, which crosses the plot time 1; the aligned candidate 0.25 is
stored and the step ends on 1. -/
theorem plot_align_lands_witness :
    plot_align plot_cross (1 / 2) = 1 / 4 ∧
      ∃ k : ℤ, plot_cross.cur_time + plot_align plot_cross (1 / 2) = k * plot_cross.plot_per ∧
        plot_align plot_cross (1 / 2) ≤ 1 / 2 ∧
        plot_cross.cur_time + (ComputeDt sqrtQ plot_cross 0).dt = k * plot_cross.plot_per := by
  refine ⟨by decide!, ?_⟩
  obtain ⟨k, h1, h2, h3⟩ := plot_align_lands plot_cross (1 / 2) (by decide!) (by decide!)
    (by decide!)
  exact ⟨k, h1, h2, h3 sqrtQ 0 (by decide!) (by decide!) (by decide!) (by decide!)⟩

/-! ## Claims on the combined bound -/

/-- C22: for all real `S = conv_cfl + diff_cfl >= 0` and `F = forc_cfl >= 0`,
`comb_cfl = S + sqrt(S^2 + 4F)` (line 127 with the real square root) is
non-negative, is a root of `y^2 - 2*S*y - 4*F = 0` and not smaller than any
other real root, is zero iff `S = 0` and `F = 0`, and for `comb_cfl > 0` the
unlimited candidate `dt = 2*cfl/comb_cfl` of line 130 satisfies
`(dt/2) * (S + sqrt(S^2 + 4F)) = cfl` for every `cfl`. -/
theorem comb_cfl_quadratic_root (S F : ℝ) (hS : 0 ≤ S) (hF : 0 ≤ F) :
    0 ≤ comb_cfl_at Real.sqrt S F ∧
      comb_cfl_at Real.sqrt S F ^ 2 - 2 * S * comb_cfl_at Real.sqrt S F - 4 * F = 0 ∧
      (∀ y : ℝ, y ^ 2 - 2 * S * y - 4 * F = 0 → y ≤ comb_cfl_at Real.sqrt S F) ∧
      (comb_cfl_at Real.sqrt S F = 0 ↔ S = 0 ∧ F = 0) ∧
      (0 < comb_cfl_at Real.sqrt S F → ∀ cfl : ℝ,
        dt_new_at cfl (comb_cfl_at Real.sqrt S F) / 2 * (S + Real.sqrt (S ^ 2 + 4 * F))
          = cfl) := by
  have hx : 0 ≤ S ^ 2 + 4 * F := by positivity
  have hnn : 0 ≤ Real.sqrt (S ^ 2 + 4 * F) := Real.sqrt_nonneg _
  have hsq : Real.sqrt (S ^ 2 + 4 * F) * Real.sqrt (S ^ 2 + 4 * F) = S ^ 2 + 4 * F :=
    Real.mul_self_sqrt hx
  unfold dt_new_at comb_cfl_at
  generalize Real.sqrt (S ^ 2 + 4 * F) = r at *
  refine ⟨by linarith, by nlinarith, ?_, ?_, ?_⟩
  · intro y hy
    by_contra hlt
    have h1 : r < y - S := by linarith [not_le.mp hlt]
    have h2 : r * r < (y - S) * (y - S) := by nlinarith
    nlinarith
  · constructor
    · intro h
      have hS0 : S = 0 := by linarith
      have hr0 : r = 0 := by linarith
      refine ⟨hS0, ?_⟩
      rw [hS0, hr0] at hsq
      linarith
    · rintro ⟨hS0, hF0⟩
      rw [hS0, hF0] at hsq
      have hr0 : r = 0 := by
        have : r * r = 0 := by linarith
        exact mul_self_eq_zero.mp this
      rw [hS0, hr0]
      ring
  · intro hpos cfl
    field_simp
    ring

/-- C22 at concrete inputs: for `S = F = 1`, where `S^2 + 4F = 5` is not a
square, `comb_cfl = 1 + sqrt 5` solves `y^2 - 2y - 4 = 0`; for `S = 3` and
`F = 4` the combined bound is 8, the larger root of `y^2 - 6y - 16 = 0` (the
other is -2), which is also the value that `ComputeDt` computes with the
executable square root for a flow with these terms, and `dt = 1/8` for
`cfl = 0.5`. -/
theorem comb_cfl_quadratic_root_witness :
    comb_cfl_at Real.sqrt 1 1 ^ 2 - 2 * 1 * comb_cfl_at Real.sqrt 1 1 - 4 * 1 = 0 ∧
      comb_cfl_at Real.sqrt 3 4 = 8 ∧
      (conv_cfl forced_flow + diff_cfl forced_flow = 3 ∧ forc_cfl forced_flow = 4 ∧
        comb_cfl sqrtQ forced_flow = 8 ∧ dt_new sqrtQ forced_flow = 1 / 8) := by
  refine ⟨(comb_cfl_quadratic_root 1 1 (by norm_num) (by norm_num)).2.1, ?_, by decide!⟩
  obtain ⟨h0, h1, -⟩ := comb_cfl_quadratic_root 3 4 (by norm_num) (by norm_num)
  have h2 : (comb_cfl_at Real.sqrt 3 4 - 8) * (comb_cfl_at Real.sqrt 3 4 + 2) = 0 := by
    linear_combination h1
  rcases mul_eq_zero.mp h2 with h | h
  · linarith
  · linarith

/-! ## Claims on the fixed-step warning -/

/-- C23: in the unit flow run with `fixed_dt = 0.1`, after three steps (time 0.3)
with plot period 0.35, the stability bound `2*cfl/comb_cfl` is 0.5, so `fixed_dt`
is not larger than it, yet the warning "fixed_dt does not satisfy CFL condition"
is printed: the test of line 171 compares `fixed_dt` with the local `dt_new`
after the growth limiter (0.11) and the plot-time alignment (0.05), not with the
bound. The stored `dt` is `fixed_dt`. -/
theorem ComputeDt_warning_below_bound :
    fixed_plot.fixed_dt = 1 / 10 ∧ eps < comb_cfl sqrtQ fixed_plot ∧
      2 * fixed_plot.cfl / comb_cfl sqrtQ fixed_plot = 1 / 2 ∧
      initial_scale 0 (dt_new sqrtQ fixed_plot) = 1 / 2 ∧
      dt_limited fixed_plot 0 (comb_cfl sqrtQ fixed_plot) (dt_new sqrtQ fixed_plot) = 11 / 100 ∧
      dt_candidate fixed_plot 0 (comb_cfl sqrtQ fixed_plot) (dt_new sqrtQ fixed_plot) = 1 / 20 ∧
      ComputeDt_warning sqrtQ fixed_plot 0 = true ∧
      (ComputeDt sqrtQ fixed_plot 0).dt = 1 / 10 := by
  refine ⟨by decide!, by decide!, by decide!, by decide!, by decide!, by decide!, by decide!,
    by decide!⟩

/-! ## Claims on the zero baseline -/

/-- With a baseline of at most 1e-15 in the three components of a level and a
positive tolerance, the relative criterion of the level holds. -/
theorem condition2_of_small_baseline (s : incflo) (lev : ℕ)
    (hall : ∀ i, i < 3 → Norm s.vel_old lev i 1 ≤ 1 / 10 ^ 15)
    (htol : 0 < s.steady_state_tol) : condition2 s lev = true := by
  have hz : ∀ i, i < 3 → relchange s lev i = 0 := by
    intro i hi
    unfold relchange
    simp only
    rw [if_neg (not_lt.mpr (hall i hi))]
  unfold condition2 max_relchange
  rw [foldl_max_range3 (relchange s lev) (relchange_nonneg s lev 0)]
  unfold worst3
  rw [hz 0 (by norm_num), hz 1 (by norm_num), hz 2 (by norm_num)]
  simpa using htol

/-- C24: for every state with `nstep >= 2` and `steady_state_tol > 0` in which,
on every level up to the finest, each of the three components of `vel_old` has
`sum|vel_old| <= 1e-15`, `SteadyStateReached` returns true for every new velocity
field `vel`. -/
theorem SteadyStateReached_small_baseline (s : incflo) (hnstep : 2 ≤ s.nstep)
    (htol : 0 < s.steady_state_tol)
    (hbase : ∀ lev, lev ≤ s.finest_level → ∀ i, i < 3 →
      Norm s.vel_old lev i 1 ≤ 1 / 10 ^ 15) :
    ∀ vel : List MultiFab, SteadyStateReached { s with vel := vel } = true := by
  intro vel
  unfold SteadyStateReached
  rw [if_neg (not_lt.mpr hnstep), reached_iff]
  intro lev hlev
  exact Or.inr (condition2_of_small_baseline { s with vel := vel } lev (hbase lev hlev) htol)

/-- C24 at concrete inputs: with `vel_old = 0` on step 5, the state is reported
steady for the new velocity (1, 0, 0), whose change per unit time is 100, and
for the new velocity (1000000, 0, 0). -/
theorem SteadyStateReached_small_baseline_witness :
    Norm (diff_vel zero_baseline) 0 0 0 / zero_baseline.dt = 100 ∧
      condition1 zero_baseline 0 = false ∧
      SteadyStateReached zero_baseline = true ∧
      SteadyStateReached { zero_baseline with vel := [uniform [1000000, 0, 0]] } = true :=
  ⟨by decide!, by decide!,
    SteadyStateReached_small_baseline zero_baseline (by decide!) (by decide!)
      (fun lev hlev i hi => by
        have h0 : lev = 0 := Nat.le_zero.mp hlev
        subst h0
        interval_cases i <;> decide!) [uniform [1, 0, 0]],
    SteadyStateReached_small_baseline zero_baseline (by decide!) (by decide!)
      (fun lev hlev i hi => by
        have h0 : lev = 0 := Nat.le_zero.mp hlev
        subst h0
        interval_cases i <;> decide!) [uniform [1000000, 0, 0]]⟩

end Incflo
